import Mathlib

/-!
# Image state tracking (pkg/state/state.go)

A shallow embedding of `Track`, `track`, `all` and `update`.

* The OCI client, the router and the helpers of package `oci` are capabilities
  (`Env`); each of them threads an arbitrary world state, so that an answer may
  depend on everything that happened before.
* The four Prometheus gauge vectors of package `metrics` are maps from the
  registry label to a number (`Metrics`); a label without a series reads 0.
  Gauge values are integers here: the code only ever adds and subtracts integers.
* Every function additionally reports the calls it made on the client and on the
  router (`Call`), in order. This record is what the statements about
  "calls Advertise" and "calls WalkImage" talk about; no result depends on it.
-/

namespace Spegel

/-! ## Errors -/

/-- Go error values that occur in the tracker: the two sentinels of package
`context`, `errors.New`, `fmt.Errorf` with one `%w` operand, `errors.Join`. -/
inductive GoError where
  | canceled : GoError
  | deadlineExceeded : GoError
  | errorsNew (msg : String) : GoError
  | wrap (msg : String) (inner : GoError) : GoError
  | join (errs : List GoError) : GoError

mutual
/-- The test `errors.Is(err, context.Canceled)`: the error itself, or what it
wraps, or one of the errors it joins. -/
def GoError.isCanceled : GoError → Bool
  | .canceled => true
  | .deadlineExceeded => false
  | .errorsNew _ => false
  | .wrap _ inner => inner.isCanceled
  | .join errs => GoError.anyCanceled errs
/-- The walk of `errors.Is` over the operands of a joined error. -/
def GoError.anyCanceled : List GoError → Bool
  | [] => false
  | e :: es => e.isCanceled || GoError.anyCanceled es
end

/-- `errors.Join(errs...)` on a slice of non-nil errors: nil when the slice is
empty, one error holding all of them otherwise. -/
def errorsJoin (errs : List GoError) : Option GoError :=
  match errs with
  | [] => none
  | e :: es => some (GoError.join (e :: es))

/-! ## Images and events -/

/-- Modelled from the spec: the declaration of `oci.Image` is not among the
files at hand; a content item has a registry, a repository, a tag that may be
empty and a digest, all strings (`img.Tag == ""`, `img.Digest.String()`). -/
structure Image where
  Registry : String
  Repository : String
  Tag : String
  Digest : String
deriving DecidableEq, Repr

/-- Modelled from the spec: the declaration of `oci.EventType` is not among the
files at hand; the kind of an event is one of Create, Update and Delete. -/
inductive EventType where
  | CreateEvent
  | UpdateEvent
  | DeleteEvent
deriving DecidableEq, Repr

/-- Modelled from the spec: the declaration of `oci.ImageEvent` is not among
the files at hand; an event holds an image and a kind. -/
structure ImageEvent where
  Image : Image
  Type_ : EventType
deriving DecidableEq, Repr

/-! ## Metrics -/

/-- One gauge vector labelled by registry. -/
abbrev GaugeVec := String → Int

/-- `g.WithLabelValues(label).Add(v)`. -/
def GaugeVec.add (g : GaugeVec) (label : String) (v : Int) : GaugeVec :=
  fun l => if l = label then g l + v else g l

/-- `g.WithLabelValues(label).Sub(v)`. -/
def GaugeVec.sub (g : GaugeVec) (label : String) (v : Int) : GaugeVec :=
  fun l => if l = label then g l - v else g l

/-- `g.Reset()`: every series is dropped. -/
def GaugeVec.reset : GaugeVec := fun _ => 0

/-- Modelled from the spec: the declarations of package `metrics` are not among
the files at hand; the counters advertised-keys, advertised-images,
advertised-tags and advertised-digests, each labelled by registry. -/
structure Metrics where
  AdvertisedKeys : GaugeVec
  AdvertisedImages : GaugeVec
  AdvertisedImageTags : GaugeVec
  AdvertisedImageDigests : GaugeVec

/-! ## Capabilities and calls -/

/-- What the tracker consumes: the client (`ListImages`, the digest walk
`oci.WalkImage`), the router (`Advertise`) and the methods of `oci.Image`.
The state `σ` is whatever the client and the router remember between calls. -/
structure Env (σ : Type) where
  ListImages : σ → Except GoError (List Image) × σ
  WalkImage : Image → σ → Except GoError (List String) × σ
  Advertise : List String → σ → Option GoError × σ
  IsLatestTag : Image → Bool
  TagName : Image → Option String
  ImageString : Image → String

/-- One call on the client or the router, with its arguments and its answer. -/
inductive Call where
  | listImages (ans : Except GoError (List Image))
  | walkImage (img : Image) (ans : Except GoError (List String))
  | advertise (keys : List String) (ans : Option GoError)

/-- The answer of a call, without its arguments. -/
inductive Answer where
  | images (ans : Except GoError (List Image))
  | digests (ans : Except GoError (List String))
  | advertised (ans : Option GoError)

/-- The answer given to a call. -/
def Call.answer : Call → Answer
  | .listImages ans => .images ans
  | .walkImage _ ans => .digests ans
  | .advertise _ ans => .advertised ans

/-- The key lists passed to `Router.Advertise`, in call order. -/
def advertisedKeys : List Call → List (List String)
  | [] => []
  | .advertise keys _ :: cs => keys :: advertisedKeys cs
  | _ :: cs => advertisedKeys cs

/-- The images passed to the digest walk, in call order. -/
def walkedImages : List Call → List Image
  | [] => []
  | .walkImage img _ :: cs => img :: walkedImages cs
  | _ :: cs => walkedImages cs

/-- What a function leaves behind: its return value, the world, the gauges and
the calls it made. -/
structure Outcome (σ : Type) (α : Type) where
  ret : α
  world : σ
  metrics : Metrics
  calls : List Call

/-! ## update -/

/-- The key list `update` starts from (state.go:108-114): the tag name, unless
the image has none or its tag is the latest tag and latest tags are not
resolved. -/
def tagKeys {σ : Type} (env : Env σ) (img : Image) (resolveLatestTag : Bool) : List String :=
  if !(!resolveLatestTag && env.IsLatestTag img) then
    match env.TagName img with
    | some tagName => [tagName]
    | none => []
  else []

/-- The end of `update` (state.go:130-144): advertise `keys`, then count a
created image. `calls` are the calls already made by `update`. -/
def updateAdvertise {σ : Type} (env : Env σ) (event : ImageEvent) (keys : List String)
    (w : σ) (m : Metrics) (calls : List Call) : Outcome σ (Nat × Option GoError) :=
  match env.Advertise keys w with
  | (some err, w1) =>
    ⟨(0, some (GoError.wrap ("could not advertise image " ++ env.ImageString event.Image) err)),
      w1, m, calls ++ [Call.advertise keys (some err)]⟩
  | (none, w1) =>
    let m1 : Metrics :=
      if event.Type_ = EventType.CreateEvent then
        if event.Image.Tag = "" then
          ⟨m.AdvertisedKeys, m.AdvertisedImages.add event.Image.Registry 1,
            m.AdvertisedImageTags, m.AdvertisedImageDigests.add event.Image.Registry 1⟩
        else
          ⟨m.AdvertisedKeys, m.AdvertisedImages.add event.Image.Registry 1,
            m.AdvertisedImageTags.add event.Image.Registry 1, m.AdvertisedImageDigests⟩
      else m
    ⟨(keys.length, none), w1, m1, calls ++ [Call.advertise keys none]⟩

/-- The function `update` (state.go:107-145). The return value is the pair
`(int, error)`. -/
def update {σ : Type} (env : Env σ) (event : ImageEvent) (skipDigests resolveLatestTag : Bool)
    (w : σ) (m : Metrics) : Outcome σ (Nat × Option GoError) :=
  let keys : List String := tagKeys env event.Image resolveLatestTag
  if event.Type_ = EventType.DeleteEvent then
    ⟨(0, none), w,
      ⟨m.AdvertisedKeys, m.AdvertisedImages.sub event.Image.Registry 1,
        m.AdvertisedImageTags, m.AdvertisedImageDigests⟩, []⟩
  else if !skipDigests then
    match env.WalkImage event.Image w with
    | (Except.error err, w1) =>
      ⟨(0, some (GoError.wrap ("could not get digests for image " ++ env.ImageString event.Image)
          err)), w1, m, [Call.walkImage event.Image (Except.error err)]⟩
    | (Except.ok dgsts, w1) =>
      updateAdvertise env event (keys ++ dgsts) w1 m [Call.walkImage event.Image (Except.ok dgsts)]
  else
    updateAdvertise env event keys w m []

/-! ## all -/

/-- What one iteration of the loop of `all` did: the image, the value of
`skipDigests`, what `update` returned, and the calls `update` made. -/
structure ItemRun where
  img : Image
  skipDigests : Bool
  keyTotal : Nat
  err : Option GoError
  calls : List Call

/-- The variables of the loop of `all`: `errs`, `targets` (the keys of the map),
the world, the gauges, and the two records (calls made, iterations run). -/
structure LoopState (σ : Type) where
  errs : List GoError
  targets : List String
  world : σ
  metrics : Metrics
  calls : List Call
  runs : List ItemRun

/-- The body of the loop of `all` (state.go:85-102), for the image `img`. -/
def allIter {σ : Type} (env : Env σ) (resolveLatestTag : Bool) (st : LoopState σ)
    (img : Image) : LoopState σ :=
  let skipDigests := st.targets.contains img.Digest
  let event : ImageEvent := ⟨img, EventType.UpdateEvent⟩
  let o := update env event skipDigests resolveLatestTag st.world st.metrics
  match o.ret with
  | (keyTotal, some err) =>
    ⟨st.errs ++ [err], st.targets, o.world, o.metrics, st.calls ++ o.calls,
      st.runs ++ [⟨img, skipDigests, keyTotal, some err, o.calls⟩]⟩
  | (keyTotal, none) =>
    let m := o.metrics
    let m1 : Metrics :=
      ⟨m.AdvertisedKeys.add img.Registry keyTotal, m.AdvertisedImages.add img.Registry 1,
        m.AdvertisedImageTags, m.AdvertisedImageDigests⟩
    let m2 : Metrics :=
      if img.Tag = "" then
        ⟨m1.AdvertisedKeys, m1.AdvertisedImages, m1.AdvertisedImageTags,
          m1.AdvertisedImageDigests.add event.Image.Registry 1⟩
      else
        ⟨m1.AdvertisedKeys, m1.AdvertisedImages,
          m1.AdvertisedImageTags.add event.Image.Registry 1, m1.AdvertisedImageDigests⟩
    ⟨st.errs, img.Digest :: st.targets, o.world, m2, st.calls ++ o.calls,
      st.runs ++ [⟨img, skipDigests, keyTotal, none, o.calls⟩]⟩

/-- The loop of `all` (state.go:84-103): the body runs for every image of the
list, in order. -/
def allLoop {σ : Type} (env : Env σ) (resolveLatestTag : Bool) :
    List Image → LoopState σ → LoopState σ
  | [], st => st
  | img :: rest, st => allLoop env resolveLatestTag rest (allIter env resolveLatestTag st img)

/-- The variables of `all` when its loop starts (state.go:78-83): the four
gauge vectors are reset, `errs` and `targets` are empty; `ListImages` is the
one call made so far. -/
def allStart {σ : Type} (w : σ) (imgs : List Image) : LoopState σ :=
  ⟨[], [], w, ⟨GaugeVec.reset, GaugeVec.reset, GaugeVec.reset, GaugeVec.reset⟩,
    [Call.listImages (Except.ok imgs)], []⟩

/-- What `all` leaves behind: its error, the world, the gauges, the calls made
and the iterations of its loop. -/
structure AllOutcome (σ : Type) where
  ret : Option GoError
  world : σ
  metrics : Metrics
  calls : List Call
  runs : List ItemRun

/-- The function `all` (state.go:71-105). -/
def all {σ : Type} (env : Env σ) (resolveLatestTag : Bool) (w : σ) (m : Metrics) :
    AllOutcome σ :=
  match env.ListImages w with
  | (Except.error err, w1) => ⟨some err, w1, m, [Call.listImages (Except.error err)], []⟩
  | (Except.ok imgs, w1) =>
    let st := allLoop env resolveLatestTag imgs (allStart w1 imgs)
    ⟨errorsJoin st.errs, st.world, st.metrics, st.calls, st.runs⟩

/-! ## track and Track -/

/-- The case that one `select` of `track` takes (state.go:44-67): the context
is done (with the value of `ctx.Err()`), the merged ticker fired, the event
channel delivered an event or was closed, the error channel delivered an error
or was closed. -/
inductive Selected where
  | ctxDone (ctxErr : GoError)
  | ticker
  | event (ev : ImageEvent)
  | eventClosed
  | errRecv (err : Option GoError)
  | errClosed

/-- How one iteration of the loop of `track` ends: the loop goes on, or
`track` returns an error. -/
inductive LoopExit where
  | next
  | ret (err : GoError)

/-- One iteration of the loop of `track` (state.go:43-68). -/
def trackStep {σ : Type} (env : Env σ) (resolveLatestTag : Bool) (sel : Selected)
    (w : σ) (m : Metrics) : Outcome σ LoopExit :=
  match sel with
  | Selected.ctxDone ctxErr => ⟨LoopExit.ret ctxErr, w, m, []⟩
  | Selected.ticker =>
    let o := all env resolveLatestTag w m
    match o.ret with
    | some err =>
      ⟨LoopExit.ret (GoError.wrap "received errors when updating all images" err),
        o.world, o.metrics, o.calls⟩
    | none => ⟨LoopExit.next, o.world, o.metrics, o.calls⟩
  | Selected.event ev =>
    let o := update env ev false resolveLatestTag w m
    match o.ret.2 with
    | some _ => ⟨LoopExit.next, o.world, o.metrics, o.calls⟩
    | none => ⟨LoopExit.next, o.world, o.metrics, o.calls⟩
  | Selected.eventClosed => ⟨LoopExit.ret (GoError.errorsNew "image event channel closed"), w, m, []⟩
  | Selected.errRecv _ => ⟨LoopExit.next, w, m, []⟩
  | Selected.errClosed => ⟨LoopExit.ret (GoError.errorsNew "image error channel closed"), w, m, []⟩

/-- The test of `Track` on the result of one run of `track` (state.go:22):
`err == nil || errors.Is(err, context.Canceled)`. -/
def trackStops (err : Option GoError) : Bool :=
  match err with
  | none => true
  | some e => e.isCanceled

/-- The loop of `Track` (state.go:20-28). `runTrack i` is the result of run
number `i` of `track`. The value is the number of runs of `track` started when
`Track` returns, or `none` when it has not returned within `fuel` runs. -/
def Track (runTrack : Nat → Option GoError) : Nat → Nat → Option Nat
  | 0, _ => none
  | fuel + 1, started =>
    if trackStops (runTrack started) then some (started + 1)
    else Track runTrack fuel (started + 1)

/-! ## Example client and router -/

/-- An example client and router without memory: `ListImages` answers `imgs`,
the digest walk fails on the images `walkFails` selects and otherwise answers
the digest of the image followed by one layer digest, `Advertise` fails on the
key lists `advFails` selects. The tag name is `registry/repository:tag`, the
latest tag is `latest`. -/
def exEnv (imgs : Except GoError (List Image)) (walkFails : Image → Bool)
    (advFails : List String → Bool) : Env Unit where
  ListImages := fun w => (imgs, w)
  WalkImage := fun img w =>
    if walkFails img then (Except.error (GoError.errorsNew "walk failed"), w)
    else (Except.ok [img.Digest, "sha256:layer"], w)
  Advertise := fun keys w =>
    if advFails keys then (some (GoError.errorsNew "advertise failed"), w) else (none, w)
  IsLatestTag := fun img => img.Tag == "latest"
  TagName := fun img =>
    if img.Tag = "" then none else some (img.Registry ++ "/" ++ img.Repository ++ ":" ++ img.Tag)
  ImageString := fun img => img.Registry ++ "/" ++ img.Repository ++ ":" ++ img.Tag ++ "@" ++ img.Digest

/-- An example image of registry `docker.io`. -/
def exImage (tag digest : String) : Image := ⟨"docker.io", "library/alpine", tag, digest⟩

/-- Gauges that read `n` for every registry. -/
def exMetrics (n : Int) : Metrics := ⟨fun _ => n, fun _ => n, fun _ => n, fun _ => n⟩

/-- Three example images: two tags of one digest, and between them an untagged
image of another digest. -/
def exImages : List Image :=
  [exImage "v1" "sha256:aa", exImage "" "sha256:bb", exImage "v2" "sha256:aa"]

/-! ## Notions used in the proofs -/

/-- The gauges after a created image was counted (state.go:137-142). -/
def countCreated (m : Metrics) (img : Image) : Metrics :=
  if img.Tag = "" then
    ⟨m.AdvertisedKeys, m.AdvertisedImages.add img.Registry 1,
      m.AdvertisedImageTags, m.AdvertisedImageDigests.add img.Registry 1⟩
  else
    ⟨m.AdvertisedKeys, m.AdvertisedImages.add img.Registry 1,
      m.AdvertisedImageTags.add img.Registry 1, m.AdvertisedImageDigests⟩

/-- The gauges after one item of the pass was counted (state.go:96-102). -/
def countSynced (m : Metrics) (img : Image) (keyTotal : Nat) : Metrics :=
  if img.Tag = "" then
    ⟨m.AdvertisedKeys.add img.Registry keyTotal, m.AdvertisedImages.add img.Registry 1,
      m.AdvertisedImageTags, m.AdvertisedImageDigests.add img.Registry 1⟩
  else
    ⟨m.AdvertisedKeys.add img.Registry keyTotal, m.AdvertisedImages.add img.Registry 1,
      m.AdvertisedImageTags.add img.Registry 1, m.AdvertisedImageDigests⟩

/-- Two loop states that differ at most in the world. -/
def LoopState.agree {σ : Type} (a b : LoopState σ) : Prop :=
  a.errs = b.errs ∧ a.targets = b.targets ∧ a.metrics = b.metrics ∧ a.calls = b.calls ∧
    a.runs = b.runs

/-! ## Theorems on update -/

/-- C1: on a Delete event `update` returns `(0, nil)`, calls neither the router
nor the client (so neither `Advertise` nor the digest walk), leaves the world as
it was, lowers the advertised-images gauge of the registry of the image by
exactly 1 and changes no other gauge value. -/
theorem update_delete {σ : Type} (env : Env σ) (img : Image) (skipDigests resolveLatestTag : Bool)
    (w : σ) (m : Metrics) :
    (update env ⟨img, EventType.DeleteEvent⟩ skipDigests resolveLatestTag w m).ret = (0, none) ∧
    (update env ⟨img, EventType.DeleteEvent⟩ skipDigests resolveLatestTag w m).calls = [] ∧
    advertisedKeys
      (update env ⟨img, EventType.DeleteEvent⟩ skipDigests resolveLatestTag w m).calls = [] ∧
    walkedImages
      (update env ⟨img, EventType.DeleteEvent⟩ skipDigests resolveLatestTag w m).calls = [] ∧
    (update env ⟨img, EventType.DeleteEvent⟩ skipDigests resolveLatestTag w m).world = w ∧
    (update env ⟨img, EventType.DeleteEvent⟩ skipDigests resolveLatestTag w m).metrics.AdvertisedImages
        img.Registry = m.AdvertisedImages img.Registry - 1 ∧
    (∀ r, r ≠ img.Registry →
      (update env ⟨img, EventType.DeleteEvent⟩ skipDigests resolveLatestTag w m).metrics.AdvertisedImages
        r = m.AdvertisedImages r) ∧
    (update env ⟨img, EventType.DeleteEvent⟩ skipDigests resolveLatestTag w m).metrics.AdvertisedKeys
      = m.AdvertisedKeys ∧
    (update env ⟨img, EventType.DeleteEvent⟩ skipDigests resolveLatestTag w m).metrics.AdvertisedImageTags
      = m.AdvertisedImageTags ∧
    (update env ⟨img, EventType.DeleteEvent⟩ skipDigests resolveLatestTag w m).metrics.AdvertisedImageDigests
      = m.AdvertisedImageDigests := by
  refine ⟨rfl, rfl, rfl, rfl, rfl, ?_, ?_, rfl, rfl, rfl⟩
  · simp [update, GaugeVec.sub]
  · intro r hr
    simp [update, GaugeVec.sub, hr]

/-- Witness of C1: the image `alpine:v1` is deleted while every gauge reads 5;
advertised-images of `docker.io` reads 4 afterwards, that of `ghcr.io` still 5. -/
theorem update_delete_witness :
    (update (exEnv (Except.ok []) (fun _ => true) (fun _ => true))
      ⟨exImage "v1" "sha256:aa", EventType.DeleteEvent⟩ false true () (exMetrics 5)).ret =
      (0, none) ∧
    (update (exEnv (Except.ok []) (fun _ => true) (fun _ => true))
      ⟨exImage "v1" "sha256:aa", EventType.DeleteEvent⟩ false true () (exMetrics 5)).calls = [] ∧
    (update (exEnv (Except.ok []) (fun _ => true) (fun _ => true))
      ⟨exImage "v1" "sha256:aa", EventType.DeleteEvent⟩ false true ()
        (exMetrics 5)).metrics.AdvertisedImages "docker.io" = 4 ∧
    (update (exEnv (Except.ok []) (fun _ => true) (fun _ => true))
      ⟨exImage "v1" "sha256:aa", EventType.DeleteEvent⟩ false true ()
        (exMetrics 5)).metrics.AdvertisedImages "ghcr.io" = 5 :=
  have h := update_delete (exEnv (Except.ok []) (fun _ => true) (fun _ => true))
    (exImage "v1" "sha256:aa") false true () (exMetrics 5)
  ⟨h.1, h.2.1, h.2.2.2.2.2.1, h.2.2.2.2.2.2.1 "ghcr.io" (by decide)⟩

/-! ### Shape of the result of update -/

theorem tagKeys_eq {σ : Type} (env : Env σ) (img : Image) (resolveLatestTag : Bool) :
    tagKeys env img resolveLatestTag =
      (match env.TagName img with
        | some t => if env.IsLatestTag img = true ∧ resolveLatestTag = false then [] else [t]
        | none => []) := by
  unfold tagKeys
  cases resolveLatestTag <;> cases env.IsLatestTag img <;> cases env.TagName img <;> simp

theorem updateAdvertise_calls {σ : Type} (env : Env σ) (event : ImageEvent) (keys : List String)
    (w : σ) (m : Metrics) (calls : List Call) :
    (updateAdvertise env event keys w m calls).calls =
      calls ++ [Call.advertise keys (env.Advertise keys w).1] := by
  unfold updateAdvertise
  rcases h : env.Advertise keys w with ⟨_ | err, w1⟩ <;> simp

theorem updateAdvertise_world {σ : Type} (env : Env σ) (event : ImageEvent) (keys : List String)
    (w : σ) (m : Metrics) (calls : List Call) :
    (updateAdvertise env event keys w m calls).world = (env.Advertise keys w).2 := by
  unfold updateAdvertise
  rcases h : env.Advertise keys w with ⟨_ | err, w1⟩ <;> simp

theorem updateAdvertise_ret {σ : Type} (env : Env σ) (event : ImageEvent) (keys : List String)
    (w : σ) (m : Metrics) (calls : List Call) :
    (updateAdvertise env event keys w m calls).ret =
      (match (env.Advertise keys w).1 with
        | some err =>
          (0, some (GoError.wrap ("could not advertise image " ++ env.ImageString event.Image) err))
        | none => (keys.length, none)) := by
  unfold updateAdvertise
  rcases h : env.Advertise keys w with ⟨_ | err, w1⟩ <;> simp

theorem updateAdvertise_metrics {σ : Type} (env : Env σ) (event : ImageEvent)
    (keys : List String) (w : σ) (m : Metrics) (calls : List Call) :
    (updateAdvertise env event keys w m calls).metrics =
      (match (env.Advertise keys w).1 with
        | some _ => m
        | none =>
          if event.Type_ = EventType.CreateEvent then
            if event.Image.Tag = "" then
              ⟨m.AdvertisedKeys, m.AdvertisedImages.add event.Image.Registry 1,
                m.AdvertisedImageTags, m.AdvertisedImageDigests.add event.Image.Registry 1⟩
            else
              ⟨m.AdvertisedKeys, m.AdvertisedImages.add event.Image.Registry 1,
                m.AdvertisedImageTags.add event.Image.Registry 1, m.AdvertisedImageDigests⟩
          else m) := by
  unfold updateAdvertise
  rcases h : env.Advertise keys w with ⟨_ | err, w1⟩ <;> simp

theorem update_skip {σ : Type} (env : Env σ) (event : ImageEvent) (resolveLatestTag : Bool)
    (w : σ) (m : Metrics) (hty : event.Type_ ≠ EventType.DeleteEvent) :
    update env event true resolveLatestTag w m =
      updateAdvertise env event (tagKeys env event.Image resolveLatestTag) w m [] := by
  simp [update, hty]

theorem update_walk_error {σ : Type} (env : Env σ) (event : ImageEvent) (resolveLatestTag : Bool)
    (w : σ) (m : Metrics) (hty : event.Type_ ≠ EventType.DeleteEvent) (err : GoError)
    (hw : (env.WalkImage event.Image w).1 = Except.error err) :
    update env event false resolveLatestTag w m =
      ⟨(0, some (GoError.wrap ("could not get digests for image " ++ env.ImageString event.Image)
          err)), (env.WalkImage event.Image w).2, m,
        [Call.walkImage event.Image (Except.error err)]⟩ := by
  rcases h : env.WalkImage event.Image w with ⟨r, w1⟩
  rw [h] at hw
  simp only at hw
  subst hw
  simp [update, hty, h]

theorem update_walk_ok {σ : Type} (env : Env σ) (event : ImageEvent) (resolveLatestTag : Bool)
    (w : σ) (m : Metrics) (hty : event.Type_ ≠ EventType.DeleteEvent) (dgsts : List String)
    (hw : (env.WalkImage event.Image w).1 = Except.ok dgsts) :
    update env event false resolveLatestTag w m =
      updateAdvertise env event (tagKeys env event.Image resolveLatestTag ++ dgsts)
        (env.WalkImage event.Image w).2 m [Call.walkImage event.Image (Except.ok dgsts)] := by
  rcases h : env.WalkImage event.Image w with ⟨r, w1⟩
  rw [h] at hw
  simp only at hw
  subst hw
  simp [update, hty, h]

theorem update_walked {σ : Type} (env : Env σ) (event : ImageEvent) (skipDigests rlt : Bool)
    (w : σ) (m : Metrics) (hty : event.Type_ ≠ EventType.DeleteEvent) :
    walkedImages (update env event skipDigests rlt w m).calls =
      if skipDigests = true then [] else [event.Image] := by
  cases skipDigests with
  | true =>
    rw [update_skip env event rlt w m hty, updateAdvertise_calls]
    simp [walkedImages]
  | false =>
    cases hwalk : (env.WalkImage event.Image w).1 with
    | error e =>
      rw [update_walk_error env event rlt w m hty e hwalk]
      simp [walkedImages]
    | ok dgsts =>
      rw [update_walk_ok env event rlt w m hty dgsts hwalk, updateAdvertise_calls]
      simp [walkedImages]

theorem update_skip_keys {σ : Type} (env : Env σ) (event : ImageEvent) (rlt : Bool)
    (w : σ) (m : Metrics) (hty : event.Type_ ≠ EventType.DeleteEvent) :
    advertisedKeys (update env event true rlt w m).calls = [tagKeys env event.Image rlt] := by
  rw [update_skip env event rlt w m hty, updateAdvertise_calls]
  simp [advertisedKeys]

theorem not_delete_of_create_or_update {ty : EventType}
    (hty : ty = EventType.CreateEvent ∨ ty = EventType.UpdateEvent) :
    ty ≠ EventType.DeleteEvent := by
  rcases hty with h | h <;> simp [h]

theorem update_metrics_of_not_delete {σ : Type} (env : Env σ) (event : ImageEvent)
    (skipDigests resolveLatestTag : Bool) (w : σ) (m : Metrics)
    (hty : event.Type_ ≠ EventType.DeleteEvent) :
    (update env event skipDigests resolveLatestTag w m).metrics =
      (match (update env event skipDigests resolveLatestTag w m).ret.2 with
        | some _ => m
        | none =>
          if event.Type_ = EventType.CreateEvent then countCreated m event.Image else m) := by
  cases skipDigests with
  | true =>
    rw [update_skip env event resolveLatestTag w m hty, updateAdvertise_metrics,
      updateAdvertise_ret]
    cases (env.Advertise (tagKeys env event.Image resolveLatestTag) w).1 <;> simp [countCreated]
  | false =>
    cases hwalk : (env.WalkImage event.Image w).1 with
    | error e => rw [update_walk_error env event resolveLatestTag w m hty e hwalk]
    | ok dgsts =>
      rw [update_walk_ok env event resolveLatestTag w m hty dgsts hwalk, updateAdvertise_metrics,
        updateAdvertise_ret]
      cases (env.Advertise (tagKeys env event.Image resolveLatestTag ++ dgsts)
          (env.WalkImage event.Image w).2).1 <;> simp [countCreated]

theorem update_count_of_error {σ : Type} (env : Env σ) (event : ImageEvent)
    (skipDigests resolveLatestTag : Bool) (w : σ) (m : Metrics) (e : GoError)
    (herr : (update env event skipDigests resolveLatestTag w m).ret.2 = some e) :
    (update env event skipDigests resolveLatestTag w m).ret.1 = 0 := by
  by_cases hty : event.Type_ = EventType.DeleteEvent
  · simp [update, hty] at herr
  · cases skipDigests with
    | true =>
      rw [update_skip env event resolveLatestTag w m hty, updateAdvertise_ret] at herr ⊢
      cases hadv : (env.Advertise (tagKeys env event.Image resolveLatestTag) w).1 with
      | some e1 => rfl
      | none => rw [hadv] at herr; simp at herr
    | false =>
      cases hwalk : (env.WalkImage event.Image w).1 with
      | error e1 => rw [update_walk_error env event resolveLatestTag w m hty e1 hwalk]
      | ok dgsts =>
        rw [update_walk_ok env event resolveLatestTag w m hty dgsts hwalk,
          updateAdvertise_ret] at herr ⊢
        cases hadv : (env.Advertise (tagKeys env event.Image resolveLatestTag ++ dgsts)
            (env.WalkImage event.Image w).2).1 with
        | some e1 => rfl
        | none => rw [hadv] at herr; simp at herr

theorem update_metrics_of_update {σ : Type} (env : Env σ) (img : Image)
    (skipDigests resolveLatestTag : Bool) (w : σ) (m : Metrics) :
    (update env ⟨img, EventType.UpdateEvent⟩ skipDigests resolveLatestTag w m).metrics = m := by
  rw [update_metrics_of_not_delete env _ skipDigests resolveLatestTag w m (by simp)]
  cases (update env ⟨img, EventType.UpdateEvent⟩ skipDigests resolveLatestTag w m).ret.2 <;> simp

theorem update_metrics_of_create_ok {σ : Type} (env : Env σ) (img : Image)
    (skipDigests resolveLatestTag : Bool) (w : σ) (m : Metrics)
    (hok : (update env ⟨img, EventType.CreateEvent⟩ skipDigests resolveLatestTag w m).ret.2 = none) :
    (update env ⟨img, EventType.CreateEvent⟩ skipDigests resolveLatestTag w m).metrics =
      countCreated m img := by
  rw [update_metrics_of_not_delete env _ skipDigests resolveLatestTag w m (by simp), hok]
  simp

/-- C4: on a Create or Update event on which the digest walk (when performed)
and `Advertise` succeed, `update` returns no error and the length of `T ++ D`,
and calls `Advertise` exactly once, with the key list `T ++ D`: `T` holds the
tag name when the image has one and it is not the case that the tag is the
latest tag while `resolveLatestTag` is false, and is empty otherwise; `D` is
empty when `skipDigests` is true (no digest walk is made then) and is the answer
of the digest walk for the image otherwise. Conversely, whenever `update`
returns no error on such an event, its one `Advertise` call and its count are
these. -/
theorem update_advertises_tag_and_digests {σ : Type} (env : Env σ) (event : ImageEvent)
    (skipDigests resolveLatestTag : Bool) (w : σ) (m : Metrics)
    (hty : event.Type_ = EventType.CreateEvent ∨ event.Type_ = EventType.UpdateEvent) :
    (∀ D : List String,
      (if skipDigests = true then D = []
        else (env.WalkImage event.Image w).1 = Except.ok D) →
      (env.Advertise
        ((match env.TagName event.Image with
          | some t =>
            if env.IsLatestTag event.Image = true ∧ resolveLatestTag = false then [] else [t]
          | none => []) ++ D)
        (if skipDigests = true then w else (env.WalkImage event.Image w).2)).1 = none →
      (update env event skipDigests resolveLatestTag w m).ret =
        (((match env.TagName event.Image with
          | some t =>
            if env.IsLatestTag event.Image = true ∧ resolveLatestTag = false then [] else [t]
          | none => []) ++ D).length, none) ∧
      advertisedKeys (update env event skipDigests resolveLatestTag w m).calls =
        [(match env.TagName event.Image with
          | some t =>
            if env.IsLatestTag event.Image = true ∧ resolveLatestTag = false then [] else [t]
          | none => []) ++ D] ∧
      walkedImages (update env event skipDigests resolveLatestTag w m).calls =
        (if skipDigests = true then [] else [event.Image])) ∧
    ((update env event skipDigests resolveLatestTag w m).ret.2 = none →
      advertisedKeys (update env event skipDigests resolveLatestTag w m).calls =
        [(match env.TagName event.Image with
          | some t =>
            if env.IsLatestTag event.Image = true ∧ resolveLatestTag = false then [] else [t]
          | none => []) ++
          (if skipDigests = true then []
            else match (env.WalkImage event.Image w).1 with
              | Except.ok dgsts => dgsts
              | Except.error _ => [])] ∧
      (update env event skipDigests resolveLatestTag w m).ret.1 =
        ((match env.TagName event.Image with
          | some t =>
            if env.IsLatestTag event.Image = true ∧ resolveLatestTag = false then [] else [t]
          | none => []) ++
          (if skipDigests = true then []
            else match (env.WalkImage event.Image w).1 with
              | Except.ok dgsts => dgsts
              | Except.error _ => [])).length) := by
  have hnd := not_delete_of_create_or_update hty
  rw [← tagKeys_eq]
  constructor
  · intro D hwalk hadv
    cases skipDigests with
    | true =>
      simp only [if_true] at hwalk hadv
      subst hwalk
      rw [List.append_nil] at hadv ⊢
      rw [update_walked env event true resolveLatestTag w m hnd,
        update_skip env event resolveLatestTag w m hnd, updateAdvertise_calls,
        updateAdvertise_ret, hadv]
      simp [advertisedKeys]
    | false =>
      simp only [Bool.false_eq_true, if_false] at hwalk hadv
      rw [update_walked env event false resolveLatestTag w m hnd,
        update_walk_ok env event resolveLatestTag w m hnd D hwalk, updateAdvertise_calls,
        updateAdvertise_ret, hadv]
      simp [advertisedKeys]
  · intro hok
    cases skipDigests with
    | true =>
      rw [update_skip env event resolveLatestTag w m hnd] at hok ⊢
      rw [updateAdvertise_ret] at hok
      rw [updateAdvertise_calls, updateAdvertise_ret]
      cases hadv : (env.Advertise (tagKeys env event.Image resolveLatestTag) w).1 with
      | some e => rw [hadv] at hok; simp at hok
      | none => simp [advertisedKeys]
    | false =>
      cases hwalk : (env.WalkImage event.Image w).1 with
      | error e =>
        rw [update_walk_error env event resolveLatestTag w m hnd e hwalk] at hok
        simp at hok
      | ok dgsts =>
        rw [update_walk_ok env event resolveLatestTag w m hnd dgsts hwalk] at hok ⊢
        rw [updateAdvertise_ret] at hok
        rw [updateAdvertise_calls, updateAdvertise_ret]
        cases hadv : (env.Advertise (tagKeys env event.Image resolveLatestTag ++ dgsts)
            (env.WalkImage event.Image w).2).1 with
        | some e => rw [hadv] at hok; simp at hok
        | none => simp [advertisedKeys]

/-- Witness of C4: the image `alpine:v1` is created and walked; the image
`alpine:v2` is updated with `skipDigests` true by a client whose digest walk
would fail; the image `alpine:latest` is updated and walked while latest tags
are not resolved. -/
theorem update_advertises_tag_and_digests_witness :
    ((update (exEnv (Except.ok []) (fun _ => false) (fun _ => false))
        ⟨exImage "v1" "sha256:aa", EventType.CreateEvent⟩ false true () (exMetrics 0)).ret =
        (3, none) ∧
      advertisedKeys (update (exEnv (Except.ok []) (fun _ => false) (fun _ => false))
        ⟨exImage "v1" "sha256:aa", EventType.CreateEvent⟩ false true () (exMetrics 0)).calls =
        [["docker.io/library/alpine:v1", "sha256:aa", "sha256:layer"]]) ∧
    ((update (exEnv (Except.ok []) (fun _ => true) (fun _ => false))
        ⟨exImage "v2" "sha256:aa", EventType.UpdateEvent⟩ true true () (exMetrics 0)).ret =
        (1, none) ∧
      advertisedKeys (update (exEnv (Except.ok []) (fun _ => true) (fun _ => false))
        ⟨exImage "v2" "sha256:aa", EventType.UpdateEvent⟩ true true () (exMetrics 0)).calls =
        [["docker.io/library/alpine:v2"]] ∧
      walkedImages (update (exEnv (Except.ok []) (fun _ => true) (fun _ => false))
        ⟨exImage "v2" "sha256:aa", EventType.UpdateEvent⟩ true true () (exMetrics 0)).calls =
        []) ∧
    ((update (exEnv (Except.ok []) (fun _ => false) (fun _ => false))
        ⟨exImage "latest" "sha256:aa", EventType.UpdateEvent⟩ false false () (exMetrics 0)).ret =
        (2, none) ∧
      advertisedKeys (update (exEnv (Except.ok []) (fun _ => false) (fun _ => false))
        ⟨exImage "latest" "sha256:aa", EventType.UpdateEvent⟩ false false ()
          (exMetrics 0)).calls = [["sha256:aa", "sha256:layer"]]) :=
  have h1 := (update_advertises_tag_and_digests
    (exEnv (Except.ok []) (fun _ => false) (fun _ => false))
    ⟨exImage "v1" "sha256:aa", EventType.CreateEvent⟩ false true () (exMetrics 0)
    (Or.inl rfl)).1 ["sha256:aa", "sha256:layer"] rfl rfl
  have h2 := (update_advertises_tag_and_digests
    (exEnv (Except.ok []) (fun _ => true) (fun _ => false))
    ⟨exImage "v2" "sha256:aa", EventType.UpdateEvent⟩ true true () (exMetrics 0)
    (Or.inr rfl)).1 [] rfl rfl
  have h3 := (update_advertises_tag_and_digests
    (exEnv (Except.ok []) (fun _ => false) (fun _ => false))
    ⟨exImage "latest" "sha256:aa", EventType.UpdateEvent⟩ false false () (exMetrics 0)
    (Or.inr rfl)).1 ["sha256:aa", "sha256:layer"] rfl rfl
  ⟨⟨h1.1, h1.2.1⟩, ⟨h2.1, h2.2.1, h2.2.2⟩, ⟨h3.1, h3.2.1⟩⟩

/-- C7: an Update event leaves all four gauges as they were, whatever the digest
walk and `Advertise` answer; a Create event on which `update` returns no error
raises the advertised-images gauge of the registry of the image by exactly 1,
raises by exactly 1 the advertised-digests gauge of that registry when the tag
is empty and the advertised-tags gauge when it is not, leaves the other of the
two as it was, and leaves the advertised-keys gauge as it was. -/
theorem update_counts_only_create {σ : Type} (env : Env σ) (img : Image)
    (skipDigests resolveLatestTag : Bool) (w : σ) (m : Metrics) :
    (update env ⟨img, EventType.UpdateEvent⟩ skipDigests resolveLatestTag w m).metrics = m ∧
    ((update env ⟨img, EventType.CreateEvent⟩ skipDigests resolveLatestTag w m).ret.2 = none →
      (update env ⟨img, EventType.CreateEvent⟩ skipDigests resolveLatestTag w m).metrics.AdvertisedKeys
        = m.AdvertisedKeys ∧
      (∀ r, (update env ⟨img, EventType.CreateEvent⟩ skipDigests resolveLatestTag w
          m).metrics.AdvertisedImages r =
        if r = img.Registry then m.AdvertisedImages r + 1 else m.AdvertisedImages r) ∧
      (img.Tag = "" →
        (∀ r, (update env ⟨img, EventType.CreateEvent⟩ skipDigests resolveLatestTag w
            m).metrics.AdvertisedImageDigests r =
          if r = img.Registry then m.AdvertisedImageDigests r + 1
          else m.AdvertisedImageDigests r) ∧
        (update env ⟨img, EventType.CreateEvent⟩ skipDigests resolveLatestTag w
          m).metrics.AdvertisedImageTags = m.AdvertisedImageTags) ∧
      (img.Tag ≠ "" →
        (∀ r, (update env ⟨img, EventType.CreateEvent⟩ skipDigests resolveLatestTag w
            m).metrics.AdvertisedImageTags r =
          if r = img.Registry then m.AdvertisedImageTags r + 1 else m.AdvertisedImageTags r) ∧
        (update env ⟨img, EventType.CreateEvent⟩ skipDigests resolveLatestTag w
          m).metrics.AdvertisedImageDigests = m.AdvertisedImageDigests)) := by
  refine ⟨update_metrics_of_update env img skipDigests resolveLatestTag w m, ?_⟩
  intro hok
  rw [update_metrics_of_create_ok env img skipDigests resolveLatestTag w m hok]
  unfold countCreated
  refine ⟨?_, ?_, ?_, ?_⟩
  · split <;> rfl
  · intro r
    split <;> simp [GaugeVec.add]
  · intro ht
    simp [ht, GaugeVec.add]
  · intro ht
    simp [ht, GaugeVec.add]

/-- Witness of C7: an untagged created image; the gauges read 5 before. -/
theorem update_counts_only_create_witness :
    (update (exEnv (Except.ok []) (fun _ => false) (fun _ => false))
      ⟨exImage "" "sha256:aa", EventType.CreateEvent⟩ false true () (exMetrics 5)).ret.2 = none ∧
    (update (exEnv (Except.ok []) (fun _ => false) (fun _ => false))
      ⟨exImage "" "sha256:aa", EventType.CreateEvent⟩ false true ()
        (exMetrics 5)).metrics.AdvertisedImages "docker.io" = 6 ∧
    (update (exEnv (Except.ok []) (fun _ => false) (fun _ => false))
      ⟨exImage "" "sha256:aa", EventType.CreateEvent⟩ false true ()
        (exMetrics 5)).metrics.AdvertisedImageDigests "docker.io" = 6 ∧
    (update (exEnv (Except.ok []) (fun _ => false) (fun _ => false))
      ⟨exImage "" "sha256:aa", EventType.CreateEvent⟩ false true ()
        (exMetrics 5)).metrics.AdvertisedImageTags = (exMetrics 5).AdvertisedImageTags :=
  have h := (update_counts_only_create (exEnv (Except.ok []) (fun _ => false) (fun _ => false))
    (exImage "" "sha256:aa") false true () (exMetrics 5)).2 rfl
  ⟨rfl, h.2.1 "docker.io", (h.2.2.1 rfl).1 "docker.io", (h.2.2.1 rfl).2⟩

/-- C10: when `update` returns an error on a Create or Update event, the
returned count is 0 and all four gauges are as before the call; and when the
digest walk is performed and fails, `update` returns an error without calling
`Advertise`. -/
theorem update_failure_atomic {σ : Type} (env : Env σ) (event : ImageEvent)
    (skipDigests resolveLatestTag : Bool) (w : σ) (m : Metrics)
    (hty : event.Type_ = EventType.CreateEvent ∨ event.Type_ = EventType.UpdateEvent) :
    (∀ e, (update env event skipDigests resolveLatestTag w m).ret.2 = some e →
      (update env event skipDigests resolveLatestTag w m).ret.1 = 0 ∧
      (update env event skipDigests resolveLatestTag w m).metrics = m) ∧
    (∀ e, skipDigests = false → (env.WalkImage event.Image w).1 = Except.error e →
      (∃ e1, (update env event skipDigests resolveLatestTag w m).ret = (0, some e1)) ∧
      advertisedKeys (update env event skipDigests resolveLatestTag w m).calls = [] ∧
      (update env event skipDigests resolveLatestTag w m).metrics = m) := by
  have hnd := not_delete_of_create_or_update hty
  constructor
  · intro e herr
    refine ⟨update_count_of_error env event skipDigests resolveLatestTag w m e herr, ?_⟩
    rw [update_metrics_of_not_delete env event skipDigests resolveLatestTag w m hnd, herr]
  · intro e hskip hwalk
    subst hskip
    rw [update_walk_error env event resolveLatestTag w m hnd e hwalk]
    exact ⟨⟨_, rfl⟩, rfl, rfl⟩

/-- Witness of C10: the digest walk of a created image fails. -/
theorem update_failure_atomic_witness :
    (update (exEnv (Except.ok []) (fun _ => true) (fun _ => false))
      ⟨exImage "v1" "sha256:aa", EventType.CreateEvent⟩ false true () (exMetrics 5)).ret.1 = 0 ∧
    (update (exEnv (Except.ok []) (fun _ => true) (fun _ => false))
      ⟨exImage "v1" "sha256:aa", EventType.CreateEvent⟩ false true () (exMetrics 5)).metrics =
      exMetrics 5 ∧
    advertisedKeys (update (exEnv (Except.ok []) (fun _ => true) (fun _ => false))
      ⟨exImage "v1" "sha256:aa", EventType.CreateEvent⟩ false true () (exMetrics 5)).calls = [] :=
  have h := update_failure_atomic (exEnv (Except.ok []) (fun _ => true) (fun _ => false))
    ⟨exImage "v1" "sha256:aa", EventType.CreateEvent⟩ false true () (exMetrics 5) (Or.inl rfl)
  ⟨(h.1 _ rfl).1, (h.1 _ rfl).2, (h.2 _ rfl rfl).2.1⟩

/-! ## The loop of all -/

theorem allIter_runs {σ : Type} (env : Env σ) (rlt : Bool) (st : LoopState σ) (img : Image) :
    (allIter env rlt st img).runs = st.runs ++
      [⟨img, st.targets.contains img.Digest,
        (update env ⟨img, EventType.UpdateEvent⟩ (st.targets.contains img.Digest) rlt st.world
          st.metrics).ret.1,
        (update env ⟨img, EventType.UpdateEvent⟩ (st.targets.contains img.Digest) rlt st.world
          st.metrics).ret.2,
        (update env ⟨img, EventType.UpdateEvent⟩ (st.targets.contains img.Digest) rlt st.world
          st.metrics).calls⟩] := by
  dsimp only [allIter]
  generalize update env ⟨img, EventType.UpdateEvent⟩ (st.targets.contains img.Digest) rlt
    st.world st.metrics = o
  rcases o with ⟨⟨n, _ | e⟩, w1, m1, c1⟩ <;> simp

theorem allIter_calls {σ : Type} (env : Env σ) (rlt : Bool) (st : LoopState σ) (img : Image) :
    (allIter env rlt st img).calls = st.calls ++
      (update env ⟨img, EventType.UpdateEvent⟩ (st.targets.contains img.Digest) rlt st.world
        st.metrics).calls := by
  dsimp only [allIter]
  generalize update env ⟨img, EventType.UpdateEvent⟩ (st.targets.contains img.Digest) rlt
    st.world st.metrics = o
  rcases o with ⟨⟨n, _ | e⟩, w1, m1, c1⟩ <;> simp

theorem allIter_world {σ : Type} (env : Env σ) (rlt : Bool) (st : LoopState σ) (img : Image) :
    (allIter env rlt st img).world =
      (update env ⟨img, EventType.UpdateEvent⟩ (st.targets.contains img.Digest) rlt st.world
        st.metrics).world := by
  dsimp only [allIter]
  generalize update env ⟨img, EventType.UpdateEvent⟩ (st.targets.contains img.Digest) rlt
    st.world st.metrics = o
  rcases o with ⟨⟨n, _ | e⟩, w1, m1, c1⟩ <;> simp

theorem allIter_errs {σ : Type} (env : Env σ) (rlt : Bool) (st : LoopState σ) (img : Image) :
    (allIter env rlt st img).errs = st.errs ++
      (update env ⟨img, EventType.UpdateEvent⟩ (st.targets.contains img.Digest) rlt st.world
        st.metrics).ret.2.toList := by
  dsimp only [allIter]
  generalize update env ⟨img, EventType.UpdateEvent⟩ (st.targets.contains img.Digest) rlt
    st.world st.metrics = o
  rcases o with ⟨⟨n, _ | e⟩, w1, m1, c1⟩ <;> simp

theorem allIter_targets {σ : Type} (env : Env σ) (rlt : Bool) (st : LoopState σ) (img : Image) :
    (allIter env rlt st img).targets =
      (match (update env ⟨img, EventType.UpdateEvent⟩ (st.targets.contains img.Digest) rlt
          st.world st.metrics).ret.2 with
        | some _ => st.targets
        | none => img.Digest :: st.targets) := by
  dsimp only [allIter]
  generalize update env ⟨img, EventType.UpdateEvent⟩ (st.targets.contains img.Digest) rlt
    st.world st.metrics = o
  rcases o with ⟨⟨n, _ | e⟩, w1, m1, c1⟩ <;> simp

theorem allIter_metrics {σ : Type} (env : Env σ) (rlt : Bool) (st : LoopState σ) (img : Image) :
    (allIter env rlt st img).metrics =
      (match (update env ⟨img, EventType.UpdateEvent⟩ (st.targets.contains img.Digest) rlt
          st.world st.metrics).ret.2 with
        | some _ => st.metrics
        | none => countSynced st.metrics img
            (update env ⟨img, EventType.UpdateEvent⟩ (st.targets.contains img.Digest) rlt
              st.world st.metrics).ret.1) := by
  have hm := update_metrics_of_update env img (st.targets.contains img.Digest) rlt st.world
    st.metrics
  dsimp only [allIter]
  revert hm
  generalize update env ⟨img, EventType.UpdateEvent⟩ (st.targets.contains img.Digest) rlt
    st.world st.metrics = o
  rcases o with ⟨⟨n, _ | e⟩, w1, m1, c1⟩
  · intro hm
    simp only at hm
    subst hm
    simp only [countSynced]
  · intro hm
    simp only at hm
    subst hm
    rfl

theorem allLoop_append {σ : Type} (env : Env σ) (rlt : Bool) (imgs : List Image) (img : Image)
    (st : LoopState σ) :
    allLoop env rlt (imgs ++ [img]) st = allIter env rlt (allLoop env rlt imgs st) img := by
  induction imgs generalizing st with
  | nil => rfl
  | cons i rest ih => simp only [List.cons_append, allLoop]; exact ih _

/-- One iteration seen from outside: it appends one record `x` and moves
every variable according to what `update` returned for `x`. -/
theorem allIter_spec {σ : Type} (env : Env σ) (rlt : Bool) (st : LoopState σ) (img : Image) :
    ∃ x : ItemRun,
      x.img = img ∧ x.skipDigests = st.targets.contains img.Digest ∧
      (update env ⟨img, EventType.UpdateEvent⟩ x.skipDigests rlt st.world st.metrics).ret =
        (x.keyTotal, x.err) ∧
      (update env ⟨img, EventType.UpdateEvent⟩ x.skipDigests rlt st.world st.metrics).calls =
        x.calls ∧
      (allIter env rlt st img).runs = st.runs ++ [x] ∧
      (allIter env rlt st img).calls = st.calls ++ x.calls ∧
      (allIter env rlt st img).errs = st.errs ++ x.err.toList ∧
      (allIter env rlt st img).targets =
        (match x.err with
          | some _ => st.targets
          | none => img.Digest :: st.targets) ∧
      (allIter env rlt st img).metrics =
        (match x.err with
          | some _ => st.metrics
          | none => countSynced st.metrics img x.keyTotal) :=
  ⟨_, rfl, rfl, rfl, rfl, allIter_runs env rlt st img, allIter_calls env rlt st img,
    allIter_errs env rlt st img, allIter_targets env rlt st img, allIter_metrics env rlt st img⟩

theorem allLoop_runs_img {σ : Type} (env : Env σ) (rlt : Bool) (w : σ) (listed imgs : List Image) :
    (allLoop env rlt imgs (allStart w listed)).runs.map ItemRun.img = imgs := by
  induction imgs using List.reverseRecOn with
  | nil => rfl
  | append_singleton imgs img ih =>
    obtain ⟨x, hi, -, -, -, hr, -⟩ := allIter_spec env rlt (allLoop env rlt imgs (allStart w listed)) img
    rw [allLoop_append, hr, List.map_append, ih, List.map_singleton, hi]

theorem allLoop_errs {σ : Type} (env : Env σ) (rlt : Bool) (w : σ) (listed imgs : List Image) :
    (allLoop env rlt imgs (allStart w listed)).errs =
      (allLoop env rlt imgs (allStart w listed)).runs.filterMap ItemRun.err := by
  induction imgs using List.reverseRecOn with
  | nil => rfl
  | append_singleton imgs img ih =>
    obtain ⟨x, -, -, -, -, hr, -, he, -⟩ :=
      allIter_spec env rlt (allLoop env rlt imgs (allStart w listed)) img
    rw [allLoop_append, hr, he, List.filterMap_append, ih]
    congr 1

theorem allLoop_calls {σ : Type} (env : Env σ) (rlt : Bool) (w : σ) (listed imgs : List Image) :
    (allLoop env rlt imgs (allStart w listed)).calls =
      Call.listImages (Except.ok listed) ::
        ((allLoop env rlt imgs (allStart w listed)).runs.map ItemRun.calls).flatten := by
  induction imgs using List.reverseRecOn with
  | nil => rfl
  | append_singleton imgs img ih =>
    obtain ⟨x, -, -, -, -, hr, hc, -⟩ :=
      allIter_spec env rlt (allLoop env rlt imgs (allStart w listed)) img
    rw [allLoop_append, hr, hc, ih]
    simp

theorem allLoop_targets {σ : Type} (env : Env σ) (rlt : Bool) (w : σ) (listed imgs : List Image)
    (d : String) :
    d ∈ (allLoop env rlt imgs (allStart w listed)).targets ↔
      ∃ y ∈ (allLoop env rlt imgs (allStart w listed)).runs, y.err = none ∧ y.img.Digest = d := by
  induction imgs using List.reverseRecOn with
  | nil => simp [allLoop, allStart]
  | append_singleton imgs img ih =>
    obtain ⟨x, hi, -, -, -, hr, -, -, ht, -⟩ :=
      allIter_spec env rlt (allLoop env rlt imgs (allStart w listed)) img
    rw [allLoop_append, hr, ht]
    cases h : x.err with
    | some e =>
      simp only [List.mem_append, List.mem_singleton]
      rw [ih]
      constructor
      · rintro ⟨y, hy, h1, h2⟩
        exact ⟨y, Or.inl hy, h1, h2⟩
      · rintro ⟨y, hy | hy, h1, h2⟩
        · exact ⟨y, hy, h1, h2⟩
        · rw [hy, h] at h1
          simp at h1
    | none =>
      rw [List.mem_cons, ih]
      simp only [List.mem_append, List.mem_singleton]
      constructor
      · rintro (hd | ⟨y, hy, h1, h2⟩)
        · exact ⟨x, Or.inr rfl, h, by rw [hi, hd]⟩
        · exact ⟨y, Or.inl hy, h1, h2⟩
      · rintro ⟨y, hy | hy, h1, h2⟩
        · exact Or.inr ⟨y, hy, h1, h2⟩
        · rw [hy, hi] at h2
          exact Or.inl h2.symm

theorem allLoop_skip {σ : Type} (env : Env σ) (rlt : Bool) (w : σ) (listed imgs : List Image)
    (before after : List ItemRun) (x : ItemRun)
    (hsplit : (allLoop env rlt imgs (allStart w listed)).runs = before ++ x :: after) :
    x.skipDigests = true ↔ ∃ y ∈ before, y.err = none ∧ y.img.Digest = x.img.Digest := by
  induction imgs using List.reverseRecOn generalizing before after x with
  | nil => simp [allLoop, allStart] at hsplit
  | append_singleton imgs img ih =>
    obtain ⟨z, hi, hs, -, -, hr, -⟩ :=
      allIter_spec env rlt (allLoop env rlt imgs (allStart w listed)) img
    rw [allLoop_append, hr] at hsplit
    rcases List.eq_nil_or_concat after with hnil | ⟨after1, z1, hz⟩
    · subst hnil
      have h1 := List.append_inj_left' hsplit rfl
      have h2 := List.append_inj_right' hsplit rfl
      simp only [List.cons.injEq, and_true] at h2
      subst h2
      rw [hs, hi, ← h1]
      simp only [List.contains_eq_any_beq, List.any_eq_true, beq_iff_eq]
      have ht := allLoop_targets env rlt w listed imgs img.Digest
      constructor
      · rintro ⟨d, hd, hdd⟩
        subst hdd
        exact ht.1 hd
      · intro hy
        exact ⟨img.Digest, ht.2 hy, rfl⟩
    · subst hz
      have hsplit1 : (allLoop env rlt imgs (allStart w listed)).runs ++ [z] =
          (before ++ x :: after1) ++ [z1] := by
        rw [hsplit]; simp
      have h1 := List.append_inj_left' hsplit1 rfl
      exact ih before after1 x h1

theorem allLoop_metrics {σ : Type} (env : Env σ) (rlt : Bool) (w : σ) (listed imgs : List Image)
    (r : String) :
    (allLoop env rlt imgs (allStart w listed)).metrics.AdvertisedImages r =
      (((allLoop env rlt imgs (allStart w listed)).runs.filter
        (fun x => x.err.isNone && x.img.Registry == r)).length : Int) ∧
    (allLoop env rlt imgs (allStart w listed)).metrics.AdvertisedKeys r =
      (((allLoop env rlt imgs (allStart w listed)).runs.filter
        (fun x => x.err.isNone && x.img.Registry == r)).map (fun x => (x.keyTotal : Int))).sum ∧
    (allLoop env rlt imgs (allStart w listed)).metrics.AdvertisedImageTags r =
      (((allLoop env rlt imgs (allStart w listed)).runs.filter
        (fun x => x.err.isNone && x.img.Registry == r && x.img.Tag != "")).length : Int) ∧
    (allLoop env rlt imgs (allStart w listed)).metrics.AdvertisedImageDigests r =
      (((allLoop env rlt imgs (allStart w listed)).runs.filter
        (fun x => x.err.isNone && x.img.Registry == r && x.img.Tag == "")).length : Int) := by
  induction imgs using List.reverseRecOn with
  | nil => simp [allLoop, allStart, GaugeVec.reset]
  | append_singleton imgs img ih =>
    obtain ⟨x, hi, -, -, -, hr, -, -, -, hm⟩ :=
      allIter_spec env rlt (allLoop env rlt imgs (allStart w listed)) img
    obtain ⟨ih1, ih2, ih3, ih4⟩ := ih
    rw [allLoop_append, hr, hm]
    simp only [List.filter_append, List.length_append, List.map_append, List.sum_append]
    cases h : x.err with
    | some e =>
      simp [List.filter_cons, h, ih1, ih2, ih3, ih4]
    | none =>
      by_cases hreg : r = img.Registry
      · subst hreg
        by_cases htag : img.Tag = ""
        · simp [List.filter_cons, h, hi, ih1, ih2, ih3, ih4, countSynced, GaugeVec.add, htag]
        · simp [List.filter_cons, h, hi, ih1, ih2, ih3, ih4, countSynced, GaugeVec.add, htag]
      · have hreg1 : ¬ img.Registry = r := fun hh => hreg hh.symm
        by_cases htag : img.Tag = ""
        · simp [List.filter_cons, h, hi, ih1, ih2, ih3, ih4, countSynced, GaugeVec.add, hreg,
            hreg1, htag]
        · simp [List.filter_cons, h, hi, ih1, ih2, ih3, ih4, countSynced, GaugeVec.add, hreg,
            hreg1, htag]

theorem allLoop_runs_update {σ : Type} (env : Env σ) (rlt : Bool) (w : σ)
    (listed imgs : List Image) (x : ItemRun)
    (hx : x ∈ (allLoop env rlt imgs (allStart w listed)).runs) :
    ∃ w1 m1,
      (update env ⟨x.img, EventType.UpdateEvent⟩ x.skipDigests rlt w1 m1).ret =
        (x.keyTotal, x.err) ∧
      (update env ⟨x.img, EventType.UpdateEvent⟩ x.skipDigests rlt w1 m1).calls = x.calls := by
  induction imgs using List.reverseRecOn with
  | nil => simp [allLoop, allStart] at hx
  | append_singleton imgs img ih =>
    obtain ⟨z, hi, -, hret, hcalls, hr, -⟩ :=
      allIter_spec env rlt (allLoop env rlt imgs (allStart w listed)) img
    rw [allLoop_append, hr, List.mem_append, List.mem_singleton] at hx
    rcases hx with hx | hx
    · exact ih hx
    · subst hx
      rw [hi]
      exact ⟨_, _, hret, hcalls⟩

theorem all_of_list_ok {σ : Type} (env : Env σ) (rlt : Bool) (w : σ) (m : Metrics)
    (imgs : List Image) (hlist : (env.ListImages w).1 = Except.ok imgs) :
    all env rlt w m =
      ⟨errorsJoin (allLoop env rlt imgs (allStart (env.ListImages w).2 imgs)).errs,
        (allLoop env rlt imgs (allStart (env.ListImages w).2 imgs)).world,
        (allLoop env rlt imgs (allStart (env.ListImages w).2 imgs)).metrics,
        (allLoop env rlt imgs (allStart (env.ListImages w).2 imgs)).calls,
        (allLoop env rlt imgs (allStart (env.ListImages w).2 imgs)).runs⟩ := by
  rcases h : env.ListImages w with ⟨ans, w1⟩
  rw [h] at hlist
  simp only at hlist
  subst hlist
  simp [all, h]

theorem all_of_list_error {σ : Type} (env : Env σ) (rlt : Bool) (w : σ) (m : Metrics)
    (err : GoError) (hlist : (env.ListImages w).1 = Except.error err) :
    all env rlt w m =
      ⟨some err, (env.ListImages w).2, m, [Call.listImages (Except.error err)], []⟩ := by
  rcases h : env.ListImages w with ⟨ans, w1⟩
  rw [h] at hlist
  simp only at hlist
  subst hlist
  simp [all, h]

theorem errorsJoin_eq_none (errs : List GoError) : errorsJoin errs = none ↔ errs = [] := by
  cases errs <;> simp [errorsJoin]

theorem errorsJoin_of_ne_nil (errs : List GoError) (h : errs ≠ []) :
    errorsJoin errs = some (GoError.join errs) := by
  cases errs with
  | nil => exact absurd rfl h
  | cons e es => rfl

theorem filterMap_err_eq_nil (runs : List ItemRun) :
    runs.filterMap ItemRun.err = [] ↔ ∀ x ∈ runs, x.err = none := by
  induction runs with
  | nil => simp
  | cons x xs ih =>
    cases h : x.err with
    | none => simp [List.filterMap_cons, h, ih]
    | some e => simp [List.filterMap_cons, h]

/-! ## Theorems on all -/

/-- C2: when `ListImages` answers the list `imgs`, the loop of `all` calls
`update` exactly once for every image of `imgs`, in list order, whatever fails
(the records of the iterations are the images of the list, each is what a call
of `update` on an Update event for its image returned, and the calls of the pass
are the calls of these iterations in order); `all` returns no error exactly when
every iteration returned none, and otherwise the join of the errors of all failed
iterations, in order; and for every registry the advertised-images gauge is the
number of its iterations without error and the advertised-keys gauge is the sum
of the key counts they returned. -/
theorem all_isolates_failures {σ : Type} (env : Env σ) (rlt : Bool) (w : σ) (m : Metrics)
    (imgs : List Image) (hlist : (env.ListImages w).1 = Except.ok imgs) :
    (all env rlt w m).runs.map ItemRun.img = imgs ∧
    (∀ x ∈ (all env rlt w m).runs, ∃ w1 m1,
      (update env ⟨x.img, EventType.UpdateEvent⟩ x.skipDigests rlt w1 m1).ret =
        (x.keyTotal, x.err) ∧
      (update env ⟨x.img, EventType.UpdateEvent⟩ x.skipDigests rlt w1 m1).calls = x.calls) ∧
    (all env rlt w m).calls =
      Call.listImages (Except.ok imgs) :: ((all env rlt w m).runs.map ItemRun.calls).flatten ∧
    ((all env rlt w m).ret = none ↔ ∀ x ∈ (all env rlt w m).runs, x.err = none) ∧
    ((all env rlt w m).runs.filterMap ItemRun.err ≠ [] →
      (all env rlt w m).ret =
        some (GoError.join ((all env rlt w m).runs.filterMap ItemRun.err))) ∧
    (∀ r, (all env rlt w m).metrics.AdvertisedImages r =
      (((all env rlt w m).runs.filter
        (fun x => x.err.isNone && x.img.Registry == r)).length : Int)) ∧
    (∀ r, (all env rlt w m).metrics.AdvertisedKeys r =
      (((all env rlt w m).runs.filter
        (fun x => x.err.isNone && x.img.Registry == r)).map (fun x => (x.keyTotal : Int))).sum) := by
  rw [all_of_list_ok env rlt w m imgs hlist]
  simp only
  refine ⟨allLoop_runs_img env rlt _ imgs imgs, ?_, allLoop_calls env rlt _ imgs imgs, ?_, ?_, ?_, ?_⟩
  · intro x hx
    exact allLoop_runs_update env rlt _ imgs imgs x hx
  · rw [errorsJoin_eq_none, allLoop_errs, filterMap_err_eq_nil]
  · intro hne
    rw [allLoop_errs]
    exact errorsJoin_of_ne_nil _ hne
  · intro r
    exact (allLoop_metrics env rlt _ imgs imgs r).1
  · intro r
    exact (allLoop_metrics env rlt _ imgs imgs r).2.1

/-- Witness of C2: the digest walk of the second of three images fails; the
other two are advertised and counted (3 keys and 1 key). -/
theorem all_isolates_failures_witness :
    (exEnv (Except.ok exImages) (fun img => img.Digest == "sha256:bb") (fun _ => false)).ListImages ()
      = (Except.ok exImages, ()) ∧
    (all (exEnv (Except.ok exImages) (fun img => img.Digest == "sha256:bb") (fun _ => false))
      true () (exMetrics 7)).runs.map ItemRun.img = exImages ∧
    (all (exEnv (Except.ok exImages) (fun img => img.Digest == "sha256:bb") (fun _ => false))
      true () (exMetrics 7)).runs.map (fun x => x.err.isNone) = [true, false, true] ∧
    (all (exEnv (Except.ok exImages) (fun img => img.Digest == "sha256:bb") (fun _ => false))
      true () (exMetrics 7)).metrics.AdvertisedImages "docker.io" = 2 ∧
    (all (exEnv (Except.ok exImages) (fun img => img.Digest == "sha256:bb") (fun _ => false))
      true () (exMetrics 7)).metrics.AdvertisedKeys "docker.io" = 4 :=
  have h := all_isolates_failures
    (exEnv (Except.ok exImages) (fun img => img.Digest == "sha256:bb") (fun _ => false))
    true () (exMetrics 7) exImages rfl
  ⟨rfl, h.1, rfl, (h.2.2.2.2.2.1 "docker.io").trans rfl, (h.2.2.2.2.2.2 "docker.io").trans rfl⟩

/-! ## Two runs that get the same answers -/

theorem updateAdvertise_same_answers {σ : Type} (env : Env σ) (event : ImageEvent)
    (keys : List String) (w1 w2 : σ) (m1 m2 : Metrics) (calls : List Call) (rest1 rest2 : List Call)
    (h : ((updateAdvertise env event keys w1 m1 calls).calls ++ rest1).map Call.answer =
      ((updateAdvertise env event keys w2 m2 calls).calls ++ rest2).map Call.answer) :
    (updateAdvertise env event keys w1 m1 calls).calls =
      (updateAdvertise env event keys w2 m2 calls).calls ∧
    (updateAdvertise env event keys w1 m1 calls).ret =
      (updateAdvertise env event keys w2 m2 calls).ret ∧
    rest1.map Call.answer = rest2.map Call.answer := by
  rw [updateAdvertise_calls, updateAdvertise_calls] at h
  rw [updateAdvertise_calls, updateAdvertise_calls, updateAdvertise_ret, updateAdvertise_ret]
  simp only [List.append_assoc, List.map_append, List.singleton_append, List.map_cons,
    Call.answer] at h
  have h1 := List.append_cancel_left h
  simp only [List.cons.injEq, Answer.advertised.injEq] at h1
  rw [h1.1]
  exact ⟨rfl, rfl, h1.2⟩

theorem update_same_answers {σ : Type} (env : Env σ) (event : ImageEvent)
    (skipDigests rlt : Bool) (w1 w2 : σ) (m1 m2 : Metrics) (rest1 rest2 : List Call)
    (h : ((update env event skipDigests rlt w1 m1).calls ++ rest1).map Call.answer =
      ((update env event skipDigests rlt w2 m2).calls ++ rest2).map Call.answer) :
    (update env event skipDigests rlt w1 m1).calls = (update env event skipDigests rlt w2 m2).calls ∧
    (update env event skipDigests rlt w1 m1).ret = (update env event skipDigests rlt w2 m2).ret ∧
    rest1.map Call.answer = rest2.map Call.answer := by
  by_cases hty : event.Type_ = EventType.DeleteEvent
  · simp only [update, hty, if_true, List.nil_append] at h ⊢
    exact ⟨trivial, trivial, h⟩
  · cases skipDigests with
    | true =>
      rw [update_skip env event rlt w1 m1 hty, update_skip env event rlt w2 m2 hty] at h ⊢
      exact updateAdvertise_same_answers env event _ w1 w2 m1 m2 [] rest1 rest2 h
    | false =>
      cases hw1 : (env.WalkImage event.Image w1).1 with
      | error e1 =>
        cases hw2 : (env.WalkImage event.Image w2).1 with
        | error e2 =>
          rw [update_walk_error env event rlt w1 m1 hty e1 hw1,
            update_walk_error env event rlt w2 m2 hty e2 hw2] at h ⊢
          simp only [List.singleton_append, List.map_cons, Call.answer, List.cons.injEq,
            Answer.digests.injEq, Except.error.injEq] at h
          obtain ⟨he, hr⟩ := h
          subst he
          exact ⟨rfl, rfl, hr⟩
        | ok d2 =>
          rw [update_walk_error env event rlt w1 m1 hty e1 hw1,
            update_walk_ok env event rlt w2 m2 hty d2 hw2, updateAdvertise_calls] at h
          simp [Call.answer] at h
      | ok d1 =>
        cases hw2 : (env.WalkImage event.Image w2).1 with
        | error e2 =>
          rw [update_walk_ok env event rlt w1 m1 hty d1 hw1,
            update_walk_error env event rlt w2 m2 hty e2 hw2, updateAdvertise_calls] at h
          simp [Call.answer] at h
        | ok d2 =>
          rw [update_walk_ok env event rlt w1 m1 hty d1 hw1,
            update_walk_ok env event rlt w2 m2 hty d2 hw2] at h ⊢
          have hd : d1 = d2 := by
            rw [updateAdvertise_calls, updateAdvertise_calls] at h
            simp [Call.answer] at h
            exact h.1
          subst hd
          exact updateAdvertise_same_answers env event _ _ _ m1 m2 _ rest1 rest2 h

theorem allLoop_calls_from {σ : Type} (env : Env σ) (rlt : Bool) (imgs : List Image)
    (st : LoopState σ) : ∃ more, (allLoop env rlt imgs st).calls = st.calls ++ more := by
  induction imgs generalizing st with
  | nil => exact ⟨[], by simp [allLoop]⟩
  | cons img rest ih =>
    obtain ⟨more, hmore⟩ := ih (allIter env rlt st img)
    refine ⟨(update env ⟨img, EventType.UpdateEvent⟩ (st.targets.contains img.Digest) rlt
      st.world st.metrics).calls ++ more, ?_⟩
    rw [allLoop, hmore, allIter_calls, List.append_assoc]

theorem allIter_agree {σ : Type} (env : Env σ) (rlt : Bool) (st1 st2 : LoopState σ) (img : Image)
    (hag : st1.agree st2)
    (hcalls : (update env ⟨img, EventType.UpdateEvent⟩ (st1.targets.contains img.Digest) rlt
        st1.world st1.metrics).calls =
      (update env ⟨img, EventType.UpdateEvent⟩ (st2.targets.contains img.Digest) rlt
        st2.world st2.metrics).calls)
    (hret : (update env ⟨img, EventType.UpdateEvent⟩ (st1.targets.contains img.Digest) rlt
        st1.world st1.metrics).ret =
      (update env ⟨img, EventType.UpdateEvent⟩ (st2.targets.contains img.Digest) rlt
        st2.world st2.metrics).ret) :
    (allIter env rlt st1 img).agree (allIter env rlt st2 img) := by
  obtain ⟨h1, h2, h3, h4, h5⟩ := hag
  refine ⟨?_, ?_, ?_, ?_, ?_⟩
  · rw [allIter_errs, allIter_errs, hret, h1]
  · rw [allIter_targets, allIter_targets, hret, h2]
  · rw [allIter_metrics, allIter_metrics, hret, h3]
  · rw [allIter_calls, allIter_calls, hcalls, h4]
  · rw [allIter_runs, allIter_runs, hcalls, hret, h5, h2]

theorem allLoop_same_answers {σ : Type} (env : Env σ) (rlt : Bool) (imgs : List Image)
    (st1 st2 : LoopState σ) (hag : st1.agree st2)
    (h : (allLoop env rlt imgs st1).calls.map Call.answer =
      (allLoop env rlt imgs st2).calls.map Call.answer) :
    (allLoop env rlt imgs st1).agree (allLoop env rlt imgs st2) := by
  induction imgs generalizing st1 st2 with
  | nil => exact hag
  | cons img rest ih =>
    rw [allLoop, allLoop] at h ⊢
    obtain ⟨more1, hm1⟩ := allLoop_calls_from env rlt rest (allIter env rlt st1 img)
    obtain ⟨more2, hm2⟩ := allLoop_calls_from env rlt rest (allIter env rlt st2 img)
    have h0 := h
    rw [hm1, hm2, allIter_calls, allIter_calls, hag.2.2.2.1, hag.2.1, hag.2.2.1, List.append_assoc,
      List.append_assoc] at h0
    simp only [List.map_append] at h0
    have h1 := List.append_cancel_left h0
    simp only [← List.map_append] at h1
    obtain ⟨hc, hr, -⟩ := update_same_answers env ⟨img, EventType.UpdateEvent⟩ _ rlt st1.world
      st2.world st2.metrics st2.metrics more1 more2 h1
    apply ih _ _ _ h
    apply allIter_agree env rlt st1 st2 img hag
    · rw [hag.2.1, hag.2.2.1]; exact hc
    · rw [hag.2.1, hag.2.2.1]; exact hr

theorem all_same_answers {σ : Type} (env : Env σ) (rlt : Bool) (w1 w2 : σ) (m1 m2 : Metrics)
    (h : (all env rlt w1 m1).calls.map Call.answer = (all env rlt w2 m2).calls.map Call.answer) :
    (all env rlt w1 m1).calls = (all env rlt w2 m2).calls ∧
    (all env rlt w1 m1).ret = (all env rlt w2 m2).ret ∧
    (all env rlt w1 m1).runs = (all env rlt w2 m2).runs ∧
    ((∃ imgs, (env.ListImages w1).1 = Except.ok imgs) →
      (all env rlt w1 m1).metrics = (all env rlt w2 m2).metrics) ∧
    ((∃ err, (env.ListImages w1).1 = Except.error err) →
      (all env rlt w1 m1).metrics = m1 ∧ (all env rlt w2 m2).metrics = m2) := by
  cases hl1 : (env.ListImages w1).1 with
  | error e1 =>
    cases hl2 : (env.ListImages w2).1 with
    | error e2 =>
      rw [all_of_list_error env rlt w1 m1 e1 hl1, all_of_list_error env rlt w2 m2 e2 hl2] at h ⊢
      simp only [List.map_cons, Call.answer, List.map_nil, List.cons.injEq, Answer.images.injEq,
        Except.error.injEq, and_true] at h
      subst h
      simp
    | ok imgs2 =>
      obtain ⟨more, hmore⟩ := allLoop_calls_from env rlt imgs2 (allStart (env.ListImages w2).2 imgs2)
      rw [all_of_list_error env rlt w1 m1 e1 hl1, all_of_list_ok env rlt w2 m2 imgs2 hl2] at h
      simp only [hmore] at h
      simp [allStart, Call.answer] at h
  | ok imgs1 =>
    obtain ⟨more1, hmore1⟩ := allLoop_calls_from env rlt imgs1 (allStart (env.ListImages w1).2 imgs1)
    cases hl2 : (env.ListImages w2).1 with
    | error e2 =>
      rw [all_of_list_ok env rlt w1 m1 imgs1 hl1, all_of_list_error env rlt w2 m2 e2 hl2] at h
      simp only [hmore1] at h
      simp [allStart, Call.answer] at h
    | ok imgs2 =>
      obtain ⟨more2, hmore2⟩ :=
        allLoop_calls_from env rlt imgs2 (allStart (env.ListImages w2).2 imgs2)
      rw [all_of_list_ok env rlt w1 m1 imgs1 hl1, all_of_list_ok env rlt w2 m2 imgs2 hl2] at h ⊢
      simp only at h ⊢
      have himgs : imgs1 = imgs2 := by
        have h0 := h
        rw [hmore1, hmore2] at h0
        simp [allStart, Call.answer] at h0
        exact h0.1
      subst himgs
      have hag : (allStart (env.ListImages w1).2 imgs1).agree
          (allStart (env.ListImages w2).2 imgs1) := ⟨rfl, rfl, rfl, rfl, rfl⟩
      obtain ⟨a1, a2, a3, a4, a5⟩ := allLoop_same_answers env rlt imgs1 _ _ hag h
      refine ⟨a4, by rw [a1], a5, fun _ => a3, ?_⟩
      rintro ⟨err, herr⟩
      simp at herr

/-- C3, as amended: when the second of two passes of `all` in succession gets
the same answers from `ListImages`, the digest walk and `Advertise` as the first,
it passes the same key lists to `Advertise` in the same order, returns the same
result and leaves all four gauges equal to their values after the first pass.
When `ListImages` succeeds, the gauges after a pass do not depend on their
values before it. When `ListImages` fails, `all` returns that error having made
no other call and leaves all four gauges as they were before the pass. -/
theorem all_twice_same {σ : Type} (env : Env σ) (rlt : Bool) (w : σ) (m : Metrics)
    (hsame :
      (all env rlt (all env rlt w m).world (all env rlt w m).metrics).calls.map Call.answer =
        (all env rlt w m).calls.map Call.answer) :
    advertisedKeys (all env rlt (all env rlt w m).world (all env rlt w m).metrics).calls =
      advertisedKeys (all env rlt w m).calls ∧
    (all env rlt (all env rlt w m).world (all env rlt w m).metrics).ret = (all env rlt w m).ret ∧
    (all env rlt (all env rlt w m).world (all env rlt w m).metrics).metrics =
      (all env rlt w m).metrics ∧
    (∀ imgs, (env.ListImages w).1 = Except.ok imgs →
      ∀ m1, (all env rlt w m1).metrics = (all env rlt w m).metrics) ∧
    (∀ err, (env.ListImages w).1 = Except.error err →
      ∀ m1, (all env rlt w m1).ret = some err ∧
        (all env rlt w m1).calls = [Call.listImages (Except.error err)] ∧
        (all env rlt w m1).metrics = m1) := by
  obtain ⟨hc, hr, -, hok, herr⟩ :=
    all_same_answers env rlt w (all env rlt w m).world m (all env rlt w m).metrics hsame.symm
  refine ⟨by rw [hc], hr.symm, ?_, ?_, ?_⟩
  · cases hl : (env.ListImages w).1 with
    | error e =>
      exact (herr ⟨e, hl⟩).2
    | ok imgs =>
      exact (hok ⟨imgs, hl⟩).symm
  · intro imgs hl m1
    rw [all_of_list_ok env rlt w m1 imgs hl, all_of_list_ok env rlt w m imgs hl]
  · intro err hl m1
    rw [all_of_list_error env rlt w m1 err hl]
    exact ⟨rfl, rfl, rfl⟩

/-- Witness of C3: two passes over the three example images, the walk of the
second image failing in both; the gauges after the pass are the same whether
they read 0 or 7 before it. And two passes of a client whose `ListImages`
fails: the gauges, which read 7 before, are left as they were. -/
theorem all_twice_same_witness :
    (all (exEnv (Except.ok exImages) (fun img => img.Digest == "sha256:bb") (fun _ => false)) true
        (all (exEnv (Except.ok exImages) (fun img => img.Digest == "sha256:bb") (fun _ => false))
          true () (exMetrics 7)).world
        (all (exEnv (Except.ok exImages) (fun img => img.Digest == "sha256:bb") (fun _ => false))
          true () (exMetrics 7)).metrics).calls.map Call.answer =
      (all (exEnv (Except.ok exImages) (fun img => img.Digest == "sha256:bb") (fun _ => false))
        true () (exMetrics 7)).calls.map Call.answer ∧
    advertisedKeys
      (all (exEnv (Except.ok exImages) (fun img => img.Digest == "sha256:bb") (fun _ => false)) true
        (all (exEnv (Except.ok exImages) (fun img => img.Digest == "sha256:bb") (fun _ => false))
          true () (exMetrics 7)).world
        (all (exEnv (Except.ok exImages) (fun img => img.Digest == "sha256:bb") (fun _ => false))
          true () (exMetrics 7)).metrics).calls =
      [["docker.io/library/alpine:v1", "sha256:aa", "sha256:layer"],
        ["docker.io/library/alpine:v2"]] ∧
    (all (exEnv (Except.ok exImages) (fun img => img.Digest == "sha256:bb") (fun _ => false)) true
        (all (exEnv (Except.ok exImages) (fun img => img.Digest == "sha256:bb") (fun _ => false))
          true () (exMetrics 7)).world
        (all (exEnv (Except.ok exImages) (fun img => img.Digest == "sha256:bb") (fun _ => false))
          true () (exMetrics 7)).metrics).metrics =
      (all (exEnv (Except.ok exImages) (fun img => img.Digest == "sha256:bb") (fun _ => false))
        true () (exMetrics 7)).metrics ∧
    (all (exEnv (Except.ok exImages) (fun img => img.Digest == "sha256:bb") (fun _ => false))
      true () (exMetrics 0)).metrics =
      (all (exEnv (Except.ok exImages) (fun img => img.Digest == "sha256:bb") (fun _ => false))
        true () (exMetrics 7)).metrics ∧
    (all (exEnv (Except.error (GoError.errorsNew "list failed")) (fun _ => false) (fun _ => false))
      true () (exMetrics 7)).ret = some (GoError.errorsNew "list failed") ∧
    (all (exEnv (Except.error (GoError.errorsNew "list failed")) (fun _ => false) (fun _ => false))
      true () (exMetrics 7)).metrics = exMetrics 7 :=
  have h := all_twice_same
    (exEnv (Except.ok exImages) (fun img => img.Digest == "sha256:bb") (fun _ => false))
    true () (exMetrics 7) rfl
  have hf := (all_twice_same
    (exEnv (Except.error (GoError.errorsNew "list failed")) (fun _ => false) (fun _ => false))
    true () (exMetrics 7) rfl).2.2.2.2 (GoError.errorsNew "list failed") rfl (exMetrics 7)
  ⟨rfl, h.1.trans rfl, h.2.2.1, h.2.2.2.1 exImages rfl (exMetrics 0), hf.1, hf.2.2⟩

/-- Counterexample to C3 as stated: a client whose `ListImages` fails, with the
same answer in both passes. `all` returns before the reset, so the gauges after
the pass are the gauges before it: 1 when they read 1, 2 when they read 2. -/
theorem all_keeps_gauges_when_list_fails :
    (all (exEnv (Except.error (GoError.errorsNew "list failed")) (fun _ => false) (fun _ => false))
        true
        (all (exEnv (Except.error (GoError.errorsNew "list failed")) (fun _ => false)
          (fun _ => false)) true () (exMetrics 1)).world
        (all (exEnv (Except.error (GoError.errorsNew "list failed")) (fun _ => false)
          (fun _ => false)) true () (exMetrics 1)).metrics).calls.map Call.answer =
      (all (exEnv (Except.error (GoError.errorsNew "list failed")) (fun _ => false)
        (fun _ => false)) true () (exMetrics 1)).calls.map Call.answer ∧
    (all (exEnv (Except.error (GoError.errorsNew "list failed")) (fun _ => false) (fun _ => false))
      true () (exMetrics 1)).metrics.AdvertisedImages "docker.io" = 1 ∧
    (all (exEnv (Except.error (GoError.errorsNew "list failed")) (fun _ => false) (fun _ => false))
      true () (exMetrics 2)).metrics.AdvertisedImages "docker.io" = 2 ∧
    ¬ (∀ m1, (all (exEnv (Except.error (GoError.errorsNew "list failed")) (fun _ => false)
          (fun _ => false)) true () m1).metrics =
        (all (exEnv (Except.error (GoError.errorsNew "list failed")) (fun _ => false)
          (fun _ => false)) true () (exMetrics 1)).metrics) := by
  refine ⟨rfl, rfl, rfl, ?_⟩
  intro hall
  have h2 := congrArg (fun x => x.AdvertisedImages "docker.io") (hall (exMetrics 2))
  revert h2
  decide

/-! ## Classification of tags and digests -/

theorem allIter_metrics_ok {σ : Type} (env : Env σ) (rlt : Bool) (st : LoopState σ) (img : Image)
    (hok : (update env ⟨img, EventType.UpdateEvent⟩ (st.targets.contains img.Digest) rlt st.world
      st.metrics).ret.2 = none) :
    (allIter env rlt st img).metrics = countSynced st.metrics img
      (update env ⟨img, EventType.UpdateEvent⟩ (st.targets.contains img.Digest) rlt st.world
        st.metrics).ret.1 := by
  rw [allIter_metrics, hok]

/-- C8, as amended: an item is classified by its tag alone, whatever
`resolveLatestTag` is. On a Create event on which `update` returns no error, and
in an iteration of the loop of `all` in which `update` returns no error, an image
with an empty tag raises the advertised-digests gauge of its registry by exactly
1 and leaves advertised-tags as it was, and an image with a non-empty tag (the
latest tag included, also when `resolveLatestTag` is false) raises the
advertised-tags gauge of its registry by exactly 1 and leaves advertised-digests
as it was. After a pass of `all`, for every registry, advertised-tags is the
number of its iterations without error whose image has a non-empty tag and
advertised-digests the number of those whose image has an empty tag. -/
theorem counted_by_tag_alone {σ : Type} (env : Env σ) (rlt : Bool) :
    (∀ (img : Image) (skipDigests : Bool) (w : σ) (m : Metrics),
      (update env ⟨img, EventType.CreateEvent⟩ skipDigests rlt w m).ret.2 = none →
      (img.Tag = "" →
        (∀ r, (update env ⟨img, EventType.CreateEvent⟩ skipDigests rlt w
            m).metrics.AdvertisedImageDigests r =
          if r = img.Registry then m.AdvertisedImageDigests r + 1
          else m.AdvertisedImageDigests r) ∧
        (update env ⟨img, EventType.CreateEvent⟩ skipDigests rlt w m).metrics.AdvertisedImageTags
          = m.AdvertisedImageTags) ∧
      (img.Tag ≠ "" →
        (∀ r, (update env ⟨img, EventType.CreateEvent⟩ skipDigests rlt w
            m).metrics.AdvertisedImageTags r =
          if r = img.Registry then m.AdvertisedImageTags r + 1 else m.AdvertisedImageTags r) ∧
        (update env ⟨img, EventType.CreateEvent⟩ skipDigests rlt w
          m).metrics.AdvertisedImageDigests = m.AdvertisedImageDigests)) ∧
    (∀ (st : LoopState σ) (img : Image),
      (update env ⟨img, EventType.UpdateEvent⟩ (st.targets.contains img.Digest) rlt st.world
        st.metrics).ret.2 = none →
      (img.Tag = "" →
        (∀ r, (allIter env rlt st img).metrics.AdvertisedImageDigests r =
          if r = img.Registry then st.metrics.AdvertisedImageDigests r + 1
          else st.metrics.AdvertisedImageDigests r) ∧
        (allIter env rlt st img).metrics.AdvertisedImageTags = st.metrics.AdvertisedImageTags) ∧
      (img.Tag ≠ "" →
        (∀ r, (allIter env rlt st img).metrics.AdvertisedImageTags r =
          if r = img.Registry then st.metrics.AdvertisedImageTags r + 1
          else st.metrics.AdvertisedImageTags r) ∧
        (allIter env rlt st img).metrics.AdvertisedImageDigests =
          st.metrics.AdvertisedImageDigests)) ∧
    (∀ (w : σ) (m : Metrics) (imgs : List Image), (env.ListImages w).1 = Except.ok imgs →
      ∀ r,
        (all env rlt w m).metrics.AdvertisedImageTags r =
          (((all env rlt w m).runs.filter
            (fun x => x.err.isNone && x.img.Registry == r && x.img.Tag != "")).length : Int) ∧
        (all env rlt w m).metrics.AdvertisedImageDigests r =
          (((all env rlt w m).runs.filter
            (fun x => x.err.isNone && x.img.Registry == r && x.img.Tag == "")).length : Int)) := by
  refine ⟨?_, ?_, ?_⟩
  · intro img skipDigests w m hok
    rw [update_metrics_of_create_ok env img skipDigests rlt w m hok]
    constructor
    · intro ht
      simp [countCreated, ht, GaugeVec.add]
    · intro ht
      simp [countCreated, ht, GaugeVec.add]
  · intro st img hok
    rw [allIter_metrics_ok env rlt st img hok]
    constructor
    · intro ht
      simp [countSynced, ht, GaugeVec.add]
    · intro ht
      simp [countSynced, ht, GaugeVec.add]
  · intro w m imgs hlist r
    rw [all_of_list_ok env rlt w m imgs hlist]
    exact (allLoop_metrics env rlt _ imgs imgs r).2.2

/-- Witness of C8: the image `alpine:latest` is created while latest tags are
not resolved, and is listed by a pass. -/
theorem counted_by_tag_alone_witness :
    (update (exEnv (Except.ok [exImage "latest" "sha256:aa"]) (fun _ => false) (fun _ => false))
      ⟨exImage "latest" "sha256:aa", EventType.CreateEvent⟩ false false ()
        (exMetrics 5)).metrics.AdvertisedImageTags "docker.io" = 6 ∧
    (update (exEnv (Except.ok [exImage "latest" "sha256:aa"]) (fun _ => false) (fun _ => false))
      ⟨exImage "latest" "sha256:aa", EventType.CreateEvent⟩ false false ()
        (exMetrics 5)).metrics.AdvertisedImageDigests = (exMetrics 5).AdvertisedImageDigests ∧
    (all (exEnv (Except.ok [exImage "latest" "sha256:aa"]) (fun _ => false) (fun _ => false))
      false () (exMetrics 5)).metrics.AdvertisedImageTags "docker.io" = 1 ∧
    (all (exEnv (Except.ok [exImage "latest" "sha256:aa"]) (fun _ => false) (fun _ => false))
      false () (exMetrics 5)).metrics.AdvertisedImageDigests "docker.io" = 0 :=
  have h := counted_by_tag_alone
    (exEnv (Except.ok [exImage "latest" "sha256:aa"]) (fun _ => false) (fun _ => false)) false
  have h1 := (h.1 (exImage "latest" "sha256:aa") false () (exMetrics 5) rfl).2 (by decide)
  have h3 := h.2.2 () (exMetrics 5) [exImage "latest" "sha256:aa"] rfl "docker.io"
  ⟨(h1.1 "docker.io").trans rfl, h1.2, h3.1.trans rfl, h3.2.trans rfl⟩

/-- Counterexample to C8 as stated: the image `alpine:latest` while
`resolveLatestTag` is false. Its tag name is not among the advertised keys, and
yet `update` on its Create event raises advertised-tags from 5 to 6, and a pass
of `all` that lists it leaves advertised-tags at 1 and advertised-digests at 0. -/
theorem latest_tag_counted_as_tag :
    (exEnv (Except.ok [exImage "latest" "sha256:aa"]) (fun _ => false)
      (fun _ => false)).IsLatestTag (exImage "latest" "sha256:aa") = true ∧
    (update (exEnv (Except.ok [exImage "latest" "sha256:aa"]) (fun _ => false) (fun _ => false))
      ⟨exImage "latest" "sha256:aa", EventType.CreateEvent⟩ false false ()
        (exMetrics 5)).ret = (2, none) ∧
    advertisedKeys
      (update (exEnv (Except.ok [exImage "latest" "sha256:aa"]) (fun _ => false) (fun _ => false))
        ⟨exImage "latest" "sha256:aa", EventType.CreateEvent⟩ false false ()
          (exMetrics 5)).calls = [["sha256:aa", "sha256:layer"]] ∧
    (exMetrics 5).AdvertisedImageTags "docker.io" = 5 ∧
    (update (exEnv (Except.ok [exImage "latest" "sha256:aa"]) (fun _ => false) (fun _ => false))
      ⟨exImage "latest" "sha256:aa", EventType.CreateEvent⟩ false false ()
        (exMetrics 5)).metrics.AdvertisedImageTags "docker.io" = 6 ∧
    (all (exEnv (Except.ok [exImage "latest" "sha256:aa"]) (fun _ => false) (fun _ => false))
      false () (exMetrics 5)).ret = none ∧
    advertisedKeys
      (all (exEnv (Except.ok [exImage "latest" "sha256:aa"]) (fun _ => false) (fun _ => false))
        false () (exMetrics 5)).calls = [["sha256:aa", "sha256:layer"]] ∧
    (all (exEnv (Except.ok [exImage "latest" "sha256:aa"]) (fun _ => false) (fun _ => false))
      false () (exMetrics 5)).metrics.AdvertisedImageTags "docker.io" = 1 ∧
    (all (exEnv (Except.ok [exImage "latest" "sha256:aa"]) (fun _ => false) (fun _ => false))
      false () (exMetrics 5)).metrics.AdvertisedImageDigests "docker.io" = 0 :=
  ⟨rfl, rfl, rfl, rfl, rfl, rfl, rfl, rfl, rfl⟩

/-! ## Digests processed earlier in the pass -/

theorem allLoop_walked_nodup {σ : Type} (env : Env σ) (rlt : Bool) (w : σ)
    (listed imgs : List Image) :
    (((allLoop env rlt imgs (allStart w listed)).runs.filter
      (fun x => x.err.isNone && !x.skipDigests)).map (fun x => x.img.Digest)).Nodup := by
  induction imgs using List.reverseRecOn with
  | nil => simp [allLoop, allStart]
  | append_singleton imgs img ih =>
    obtain ⟨x, hi, hs, -, -, hr, -⟩ :=
      allIter_spec env rlt (allLoop env rlt imgs (allStart w listed)) img
    rw [allLoop_append, hr, List.filter_append, List.map_append]
    by_cases hx : (x.err.isNone && !x.skipDigests) = true
    · have hfil : List.filter (fun x => x.err.isNone && !x.skipDigests) [x] = [x] := by
        simp [List.filter_cons, hx]
      rw [hfil, List.map_singleton, List.nodup_append]
      refine ⟨ih, List.nodup_singleton _, ?_⟩
      simp only [Bool.and_eq_true, Bool.not_eq_true', Option.isNone_iff_eq_none] at hx
      have hnot : img.Digest ∉ (allLoop env rlt imgs (allStart w listed)).targets := by
        intro hmem
        have : (allLoop env rlt imgs (allStart w listed)).targets.contains img.Digest = true := by
          simpa using hmem
        rw [← hs, hx.2] at this
        exact absurd this (by decide)
      rw [allLoop_targets] at hnot
      intro d hd1 hd2
      rw [List.mem_singleton] at hd2
      subst hd2
      rw [List.mem_map] at hd1
      obtain ⟨y, hy, hyd⟩ := hd1
      rw [List.mem_filter] at hy
      simp only [Bool.and_eq_true, Option.isNone_iff_eq_none] at hy
      exact hnot ⟨y, hy.1, hy.2.1, by rw [hyd, hi]⟩
    · have hfil : List.filter (fun x => x.err.isNone && !x.skipDigests) [x] = [] := by
        simp only [List.filter_cons, hx]
        simp
      rw [hfil, List.map_nil, List.append_nil]
      exact ih

/-- C9, as amended: in a pass of `all` over the list `imgs`, the iteration of an
item runs `update` with `skipDigests = true` exactly when an earlier iteration
of the same pass for an image of the same digest returned no error (an earlier
item of that digest whose `update` failed does not count). An iteration with
`skipDigests = true` does not call the digest walk and advertises only the tag
key list of its image; an iteration with `skipDigests = false` calls the digest
walk once, for its image. Consequently the iterations without error that walked
have pairwise different digests, and the first iteration of every pass has
`skipDigests = false`, whatever the state before the pass. -/
theorem all_skips_processed_digests {σ : Type} (env : Env σ) (rlt : Bool) (w : σ) (m : Metrics)
    (imgs : List Image) (hlist : (env.ListImages w).1 = Except.ok imgs) :
    (all env rlt w m).runs.map ItemRun.img = imgs ∧
    (all env rlt w m).calls =
      Call.listImages (Except.ok imgs) :: ((all env rlt w m).runs.map ItemRun.calls).flatten ∧
    (∀ before x after, (all env rlt w m).runs = before ++ x :: after →
      (x.skipDigests = true ↔ ∃ y ∈ before, y.err = none ∧ y.img.Digest = x.img.Digest)) ∧
    (∀ x ∈ (all env rlt w m).runs, x.skipDigests = true →
      walkedImages x.calls = [] ∧
      advertisedKeys x.calls =
        [match env.TagName x.img with
          | some t => if env.IsLatestTag x.img = true ∧ rlt = false then [] else [t]
          | none => []]) ∧
    (∀ x ∈ (all env rlt w m).runs, x.skipDigests = false → walkedImages x.calls = [x.img]) ∧
    (((all env rlt w m).runs.filter (fun x => x.err.isNone && !x.skipDigests)).map
      (fun x => x.img.Digest)).Nodup ∧
    (∀ x after, (all env rlt w m).runs = x :: after → x.skipDigests = false) := by
  rw [all_of_list_ok env rlt w m imgs hlist]
  simp only
  refine ⟨allLoop_runs_img env rlt _ imgs imgs, allLoop_calls env rlt _ imgs imgs, ?_, ?_, ?_,
    allLoop_walked_nodup env rlt _ imgs imgs, ?_⟩
  · intro before x after hsplit
    exact allLoop_skip env rlt _ imgs imgs before after x hsplit
  · intro x hx hskip
    obtain ⟨w1, m1, -, hcalls⟩ := allLoop_runs_update env rlt _ imgs imgs x hx
    rw [← hcalls, hskip, ← tagKeys_eq]
    exact ⟨by rw [update_walked env _ true rlt w1 m1 (by simp)]; rfl,
      update_skip_keys env _ rlt w1 m1 (by simp)⟩
  · intro x hx hskip
    obtain ⟨w1, m1, -, hcalls⟩ := allLoop_runs_update env rlt _ imgs imgs x hx
    rw [← hcalls, hskip, update_walked env _ false rlt w1 m1 (by simp)]
    rfl
  · intro x after hsplit
    have h := allLoop_skip env rlt _ imgs imgs [] after x hsplit
    cases hs : x.skipDigests with
    | false => rfl
    | true =>
      obtain ⟨y, hy, -⟩ := h.1 hs
      simp at hy

/-- Witness of C9: the three example images, none failing; the third has the
digest of the first and is skipped. -/
theorem all_skips_processed_digests_witness :
    (all (exEnv (Except.ok exImages) (fun _ => false) (fun _ => false)) true ()
      (exMetrics 7)).runs.map ItemRun.skipDigests = [false, false, true] ∧
    (all (exEnv (Except.ok exImages) (fun _ => false) (fun _ => false)) true ()
      (exMetrics 7)).runs.map ItemRun.img = exImages ∧
    walkedImages (all (exEnv (Except.ok exImages) (fun _ => false) (fun _ => false)) true ()
      (exMetrics 7)).calls = [exImage "v1" "sha256:aa", exImage "" "sha256:bb"] ∧
    (((all (exEnv (Except.ok exImages) (fun _ => false) (fun _ => false)) true ()
      (exMetrics 7)).runs.filter (fun x => x.err.isNone && !x.skipDigests)).map
      (fun x => x.img.Digest)).Nodup :=
  have h := all_skips_processed_digests
    (exEnv (Except.ok exImages) (fun _ => false) (fun _ => false)) true () (exMetrics 7)
    exImages rfl
  ⟨rfl, h.1, rfl, h.2.2.2.2.2.1⟩

/-- Counterexample to C9 as stated: two tags of one digest, where `Advertise`
fails on every key list that holds the first tag name. The first item fails
after its digest walk; the second item, although its digest equals that of an
earlier item of the list, runs with `skipDigests = false`, and the digest walk
is called twice for the one digest. -/
theorem all_walks_again_after_failure :
    (all (exEnv (Except.ok [exImage "v1" "sha256:aa", exImage "v2" "sha256:aa"]) (fun _ => false)
      (fun keys => keys.contains "docker.io/library/alpine:v1")) true ()
      (exMetrics 7)).runs.map ItemRun.img =
      [exImage "v1" "sha256:aa", exImage "v2" "sha256:aa"] ∧
    (all (exEnv (Except.ok [exImage "v1" "sha256:aa", exImage "v2" "sha256:aa"]) (fun _ => false)
      (fun keys => keys.contains "docker.io/library/alpine:v1")) true ()
      (exMetrics 7)).runs.map (fun x => x.err.isNone) = [false, true] ∧
    (all (exEnv (Except.ok [exImage "v1" "sha256:aa", exImage "v2" "sha256:aa"]) (fun _ => false)
      (fun keys => keys.contains "docker.io/library/alpine:v1")) true ()
      (exMetrics 7)).runs.map ItemRun.skipDigests = [false, false] ∧
    walkedImages (all (exEnv (Except.ok [exImage "v1" "sha256:aa", exImage "v2" "sha256:aa"])
      (fun _ => false) (fun keys => keys.contains "docker.io/library/alpine:v1")) true ()
      (exMetrics 7)).calls = [exImage "v1" "sha256:aa", exImage "v2" "sha256:aa"] ∧
    advertisedKeys (all (exEnv (Except.ok [exImage "v1" "sha256:aa", exImage "v2" "sha256:aa"])
      (fun _ => false) (fun keys => keys.contains "docker.io/library/alpine:v1")) true ()
      (exMetrics 7)).calls =
      [["docker.io/library/alpine:v1", "sha256:aa", "sha256:layer"],
        ["docker.io/library/alpine:v2", "sha256:aa", "sha256:layer"]] :=
  ⟨rfl, rfl, rfl, rfl, rfl⟩

/-! ## Theorems on track and Track -/

/-- C5: one iteration of the loop of `track` makes `track` return an error
exactly when the context is done (the error is `ctx.Err()`), when the ticker
fired and `all` returned an error (the error wraps it), when the event channel
is closed, or when the error channel is closed. The loop goes on exactly when
the ticker fired and `all` returned no error, when an event was received
(whether `update` fails on it or not), or when an error was received on the
error channel. -/
theorem trackStep_exits {σ : Type} (env : Env σ) (rlt : Bool) (sel : Selected) (w : σ)
    (m : Metrics) :
    (∀ e, (trackStep env rlt sel w m).ret = LoopExit.ret e ↔
      (sel = Selected.ctxDone e ∨
        (sel = Selected.ticker ∧ ∃ e1, (all env rlt w m).ret = some e1 ∧
          e = GoError.wrap "received errors when updating all images" e1) ∨
        (sel = Selected.eventClosed ∧ e = GoError.errorsNew "image event channel closed") ∨
        (sel = Selected.errClosed ∧ e = GoError.errorsNew "image error channel closed"))) ∧
    ((trackStep env rlt sel w m).ret = LoopExit.next ↔
      ((sel = Selected.ticker ∧ (all env rlt w m).ret = none) ∨
        (∃ ev, sel = Selected.event ev ∧
          ((update env ev false rlt w m).ret.2 = none ∨
            ∃ e1, (update env ev false rlt w m).ret.2 = some e1)) ∨
        (∃ err, sel = Selected.errRecv err))) := by
  cases sel with
  | ctxDone ctxErr =>
    simp only [trackStep]
    constructor
    · intro e
      simp [eq_comm]
    · simp
  | ticker =>
    simp only [trackStep]
    cases h : (all env rlt w m).ret with
    | none => simp
    | some e1 => simp [eq_comm]
  | event ev =>
    simp only [trackStep]
    cases h : (update env ev false rlt w m).ret.2 with
    | none => simp [h]
    | some e1 => simp [h]
  | eventClosed => simp [trackStep, eq_comm]
  | errRecv err => simp [trackStep]
  | errClosed => simp [trackStep, eq_comm]

/-- Witness of C5: the ticker fires while `ListImages` fails, so `track`
returns the wrapped error; an event whose digest walk fails lets the loop go on. -/
theorem trackStep_exits_witness :
    (trackStep (exEnv (Except.error (GoError.errorsNew "list failed")) (fun _ => true)
      (fun _ => false)) true Selected.ticker () (exMetrics 5)).ret =
      LoopExit.ret (GoError.wrap "received errors when updating all images"
        (GoError.errorsNew "list failed")) ∧
    (trackStep (exEnv (Except.error (GoError.errorsNew "list failed")) (fun _ => true)
      (fun _ => false)) true
      (Selected.event ⟨exImage "v1" "sha256:aa", EventType.CreateEvent⟩) () (exMetrics 5)).ret =
      LoopExit.next :=
  have h1 := trackStep_exits (exEnv (Except.error (GoError.errorsNew "list failed"))
    (fun _ => true) (fun _ => false)) true Selected.ticker () (exMetrics 5)
  have h2 := trackStep_exits (exEnv (Except.error (GoError.errorsNew "list failed"))
    (fun _ => true) (fun _ => false)) true
    (Selected.event ⟨exImage "v1" "sha256:aa", EventType.CreateEvent⟩) () (exMetrics 5)
  ⟨(h1.1 _).2 (Or.inr (Or.inl ⟨rfl, _, rfl, rfl⟩)),
    h2.2.2 (Or.inr (Or.inl ⟨_, rfl, Or.inr ⟨_, rfl⟩⟩))⟩

theorem Track_ge {runTrack : Nat → Option GoError} {fuel started k : Nat}
    (h : Track runTrack fuel started = some k) : started + 1 ≤ k := by
  induction fuel generalizing started with
  | zero => simp [Track] at h
  | succ fuel ih =>
    rw [Track] at h
    split at h
    · simp only [Option.some.injEq] at h
      omega
    · have := ih h
      omega

theorem Track_none {runTrack : Nat → Option GoError} (fuel started : Nat)
    (h : ∀ i, started ≤ i → i < started + fuel → trackStops (runTrack i) = false) :
    Track runTrack fuel started = none := by
  induction fuel generalizing started with
  | zero => rfl
  | succ fuel ih =>
    rw [Track, h started (Nat.le_refl _) (by omega)]
    simp only [Bool.false_eq_true, if_false]
    exact ih (started + 1) (fun i h1 h2 => h i (by omega) (by omega))

theorem Track_some {runTrack : Nat → Option GoError} (fuel started n : Nat)
    (hno : ∀ i, started ≤ i → i < n → trackStops (runTrack i) = false)
    (hstop : trackStops (runTrack n) = true) (hle : started ≤ n) (hfuel : n < started + fuel) :
    Track runTrack fuel started = some (n + 1) := by
  induction fuel generalizing started with
  | zero => omega
  | succ fuel ih =>
    rw [Track]
    by_cases hn : started = n
    · subst hn
      simp [hstop]
    · rw [hno started (Nat.le_refl _) (by omega)]
      simp only [Bool.false_eq_true, if_false]
      exact ih (started + 1) (fun i h1 h2 => hno i (by omega) h2) (by omega) (by omega)

theorem trackStops_iff (err : Option GoError) :
    trackStops err = true ↔ (err = none ∨ ∃ e, err = some e ∧ e.isCanceled = true) := by
  cases err with
  | none => simp [trackStops]
  | some e => simp [trackStops]

/-- C6, as amended: `Track` returns right after run number `started` of
`track`, without starting another run, exactly when the result of that run is
nil or satisfies `errors.Is(err, context.Canceled)`; on every other error it
starts `track` again. `context.Canceled` satisfies the test,
`context.DeadlineExceeded` does not, and an error that wraps another one
satisfies it exactly when the wrapped one does; so the error `track` builds from
a failed `all` stops `Track` when the error of `all` is a cancellation. There is
no limit on the restarts: as long as no run ends with nil or a cancellation
`Track` does not return, and it returns after run `n` when that is the first
such run. The `ctx.Done()` case of `track` returns `ctx.Err()`, and `Track`
stops on it exactly when it is a cancellation: it stops when `ctx.Err()` is
`context.Canceled`. -/
theorem Track_stops_iff_nil_or_canceled (runTrack : Nat → Option GoError) :
    (∀ fuel started, Track runTrack (fuel + 1) started = some (started + 1) ↔
      (runTrack started = none ∨ ∃ e, runTrack started = some e ∧ e.isCanceled = true)) ∧
    (∀ fuel started,
      ¬ (runTrack started = none ∨ ∃ e, runTrack started = some e ∧ e.isCanceled = true) →
      Track runTrack (fuel + 1) started = Track runTrack fuel (started + 1)) ∧
    (GoError.canceled.isCanceled = true ∧ GoError.deadlineExceeded.isCanceled = false ∧
      (∀ msg e, (GoError.wrap msg e).isCanceled = e.isCanceled) ∧
      (∀ e es, (GoError.join (e :: es)).isCanceled = (e.isCanceled || (GoError.join es).isCanceled))) ∧
    (∀ {σ : Type} (env : Env σ) (rlt : Bool) (w : σ) (m : Metrics) (e1 : GoError),
      (all env rlt w m).ret = some e1 →
      ∃ e, (trackStep env rlt Selected.ticker w m).ret = LoopExit.ret e ∧
        e.isCanceled = e1.isCanceled) ∧
    (∀ n, (∀ i, i < n →
        ¬ (runTrack i = none ∨ ∃ e, runTrack i = some e ∧ e.isCanceled = true)) →
      (∀ fuel, fuel ≤ n → Track runTrack fuel 0 = none) ∧
      ((runTrack n = none ∨ ∃ e, runTrack n = some e ∧ e.isCanceled = true) →
        ∀ fuel, n < fuel → Track runTrack fuel 0 = some (n + 1))) ∧
    (∀ {σ : Type} (env : Env σ) (rlt : Bool) (w : σ) (m : Metrics) (ctxErr : GoError),
      (trackStep env rlt (Selected.ctxDone ctxErr) w m).ret = LoopExit.ret ctxErr ∧
      (∀ fuel started, runTrack started = some ctxErr →
        (Track runTrack (fuel + 1) started = some (started + 1) ↔ ctxErr.isCanceled = true))) ∧
    (∀ {σ : Type} (env : Env σ) (rlt : Bool) (w : σ) (m : Metrics),
      (trackStep env rlt (Selected.ctxDone GoError.canceled) w m).ret =
        LoopExit.ret GoError.canceled ∧
      (∀ fuel started, runTrack started = some GoError.canceled →
        Track runTrack (fuel + 1) started = some (started + 1))) := by
  have hiff : ∀ fuel started, Track runTrack (fuel + 1) started = some (started + 1) ↔
      (runTrack started = none ∨ ∃ e, runTrack started = some e ∧ e.isCanceled = true) := by
    intro fuel started
    rw [← trackStops_iff, Track]
    by_cases hs : trackStops (runTrack started) = true
    · simp [hs]
    · simp only [hs, if_false, Bool.false_eq_true, iff_false]
      intro h
      have := Track_ge h
      omega
  refine ⟨hiff, ?_, ⟨rfl, rfl, ?_, ?_⟩, ?_, ?_, ?_, ?_⟩
  · intro fuel started hno
    rw [← trackStops_iff] at hno
    rw [Track]
    simp [hno]
  · intro msg e
    rw [GoError.isCanceled]
  · intro e es
    rw [GoError.isCanceled, GoError.anyCanceled, GoError.isCanceled]
  · intro σ env rlt w m e1 h1
    refine ⟨GoError.wrap "received errors when updating all images" e1, ?_, ?_⟩
    · simp [trackStep, h1]
    · rw [GoError.isCanceled]
  · intro n hno
    have hno1 : ∀ i, i < n → trackStops (runTrack i) = false := by
      intro i hi
      have := hno i hi
      rw [← trackStops_iff] at this
      simpa using this
    constructor
    · intro fuel hfuel
      exact Track_none fuel 0 (fun i _ h2 => hno1 i (by omega))
    · intro hstop fuel hfuel
      rw [← trackStops_iff] at hstop
      exact Track_some fuel 0 n (fun i _ h2 => hno1 i h2) hstop (Nat.zero_le _) (by omega)
  · intro σ env rlt w m ctxErr
    refine ⟨rfl, ?_⟩
    intro fuel started hrun
    rw [hiff, hrun]
    simp
  · intro σ env rlt w m
    refine ⟨rfl, ?_⟩
    intro fuel started hrun
    rw [hiff, hrun]
    exact Or.inr ⟨_, rfl, rfl⟩

/-- Witness of C6: three runs of `track` end with an error that is not a
cancellation, the fourth ends with the wrapped cancellation of a failed `all`;
`Track` returns after four runs, and with fuel for three runs only it has not
returned. -/
theorem Track_stops_iff_nil_or_canceled_witness :
    Track (fun i => if i < 3 then some (GoError.errorsNew "image event channel closed")
      else some (GoError.wrap "received errors when updating all images" GoError.canceled)) 10 0
      = some 4 ∧
    Track (fun i => if i < 3 then some (GoError.errorsNew "image event channel closed")
      else some (GoError.wrap "received errors when updating all images" GoError.canceled)) 3 0
      = none :=
  have h := (Track_stops_iff_nil_or_canceled
    (fun i => if i < 3 then some (GoError.errorsNew "image event channel closed")
      else some (GoError.wrap "received errors when updating all images" GoError.canceled))).2.2.2.2.1
    3 (by
      intro i hi
      simp [hi, GoError.isCanceled])
  ⟨h.2 (Or.inr ⟨_, rfl, rfl⟩) 10 (by decide), h.1 3 (Nat.le_refl 3)⟩

/-- Counterexample to C6 as stated: a context that is done because its
deadline passed. The `ctx.Done()` case of `track` returns `ctx.Err()`, which is
`context.DeadlineExceeded`; this is not a cancellation for the test of `Track`,
and when every run of `track` ends in this way `Track` has not returned after a
hundred runs. -/
theorem Track_restarts_on_deadline :
    (trackStep (exEnv (Except.ok []) (fun _ => false) (fun _ => false)) true
      (Selected.ctxDone GoError.deadlineExceeded) () (exMetrics 0)).ret =
      LoopExit.ret GoError.deadlineExceeded ∧
    trackStops (some GoError.deadlineExceeded) = false ∧
    Track (fun _ => some GoError.deadlineExceeded) 1 0 =
      Track (fun _ => some GoError.deadlineExceeded) 0 1 ∧
    Track (fun _ => some GoError.deadlineExceeded) 100 0 = none :=
  ⟨rfl, rfl, rfl, rfl⟩

end Spegel
